import Mathlib

/-! # Society management backend: polls, bookings, maintenance records, lost and found, chats

A shallow embedding of the Express/Mongoose route handlers of
`backend/routes/polls.js`, `backend/routes/bookings.js`,
`backend/routes/maintenance.js`, `backend/routes/lostfound.js`,
`backend/routes/chat.js` and `backend/routes/residents.js`, with the document collections modelled as
maps from document id to document, and the handlers as functions from
a collection and the request data to a response and the collection afterwards.

Conventions.
* Object ids (polls, options, users, bookings, maintenance records) are natural
  numbers; two ids are equal exactly when their string forms are equal, which
  is what the handlers compare.
* Dates are integers (milliseconds since the epoch); `new Date()` is the
  parameter `now` of a handler.
* The `auth` middleware has already run: a handler receives the `userId` and
  `userRole` decoded from the token.
* A response is its HTTP status (200 when the handler calls `res.json` without
  `res.status`), the `error` string of an error body, and the document of a
  success body.
* Store faults (a lost connection, a failed write) are outside the model: a
  `findById`, `save` or `findByIdAndUpdate` always completes.
* Where a handler searches by a filter (`find`, `findOne`, `aggregate`), the
  documents are a list in store order, and `findOne` returns the first match.
-/

namespace Society

/-! ## Responses and collections -/

/-- What a handler sends back: the HTTP status, the `error` member of an error
body, and the document of a success body. -/
structure Response (α : Type) where
  status : Nat
  error : Option String
  doc : Option α
  deriving DecidableEq, Repr

/-- The body sent by `res.status(code).json({ error: msg })`. -/
def Response.fail {α : Type} (code : Nat) (msg : String) : Response α :=
  { status := code, error := some msg, doc := none }

/-- The body sent by `res.json(doc)`: status 200. -/
def Response.json {α : Type} (d : α) : Response α :=
  { status := 200, error := none, doc := some d }

/-- A document collection: the document stored under each `_id`, if any. -/
abbrev Collection (α : Type) := Nat → Option α

/-- The lookup `Model.findById(id)`. -/
def findById {α : Type} (db : Collection α) (id : Nat) : Option α := db id

/-- The write `doc.save()` of the document loaded under `id`: it replaces that
document and touches no other. -/
def save {α : Type} (db : Collection α) (id : Nat) (d : α) : Collection α :=
  fun k => if k = id then some d else db k

/-! ## Polls (`models/Poll.js`, `routes/polls.js`) -/

/-- One option of a poll (`PollOptionSchema`): its subdocument `_id`, its text
and the ids of the users who voted for it, in the order they were pushed. -/
structure PollOption where
  _id : Nat
  text : String
  votes : List Nat
  deriving DecidableEq, Repr

/-- A poll document (`PollSchema`). -/
structure Poll where
  question : String
  options : List PollOption
  endDate : Int
  notice : Nat
  createdAt : Int
  deriving DecidableEq, Repr

/-- The check `poll.options.some(opt => opt.votes.some(v => v.toString() === req.userId))`. -/
def hasAlreadyVoted (poll : Poll) (userId : Nat) : Bool :=
  poll.options.any (fun opt => opt.votes.any (fun v => v == userId))

/-- The lookup `poll.options.id(optionId)`: the first subdocument whose `_id`
is `optionId`, or nothing. -/
def optionsId (options : List PollOption) (optionId : Nat) : Option PollOption :=
  options.find? (fun opt => opt._id == optionId)

/-- The effect on the options array of `option.votes.push(userId)`, where
`option` is the subdocument returned by `poll.options.id(optionId)`: the first
option with that `_id` gets `userId` appended, the array is otherwise as it was. -/
def pushVote : List PollOption → Nat → Nat → List PollOption
  | [], _, _ => []
  | opt :: rest, optionId, userId =>
    if opt._id = optionId then { opt with votes := opt.votes ++ [userId] } :: rest
    else opt :: pushVote rest optionId userId

/-- The loop `poll.options.forEach(opt => { opt.votes = opt.votes.filter(v => v.toString() !== req.userId) })`. -/
def removeVotes (options : List PollOption) (userId : Nat) : List PollOption :=
  options.map (fun opt => { opt with votes := opt.votes.filter (fun v => v != userId) })

/-- The handler `router.post('/:id/vote')`. -/
def vote (db : Collection Poll) (id optionId userId : Nat) (now : Int) :
    Response Poll × Collection Poll :=
  match findById db id with
  | none => (Response.fail 404 "Poll not found", db)
  | some poll =>
    if poll.endDate < now then (Response.fail 400 "Poll has ended", db)
    else if hasAlreadyVoted poll userId then
      (Response.fail 400 "You have already voted in this poll", db)
    else
      match optionsId poll.options optionId with
      | none => (Response.fail 404 "Option not found", db)
      | some _ =>
        let updatedPoll := { poll with options := pushVote poll.options optionId userId }
        (Response.json updatedPoll, save db id updatedPoll)

/-- The handler `router.put('/:id/change-vote')`. The votes are stripped on the
loaded document; when the option is not found the handler returns before
`poll.save()`, so the stored poll keeps its votes. -/
def changeVote (db : Collection Poll) (id optionId userId : Nat) (now : Int) :
    Response Poll × Collection Poll :=
  match findById db id with
  | none => (Response.fail 404 "Poll not found", db)
  | some poll =>
    if poll.endDate < now then (Response.fail 400 "Poll has ended", db)
    else
      let stripped := removeVotes poll.options userId
      match optionsId stripped optionId with
      | none => (Response.fail 404 "Option not found", db)
      | some _ =>
        let updatedPoll := { poll with options := pushVote stripped optionId userId }
        (Response.json updatedPoll, save db id updatedPoll)

/-- A request to one of the two voting endpoints. -/
inductive PollRequest where
  | vote (id optionId userId : Nat) (now : Int)
  | changeVote (id optionId userId : Nat) (now : Int)
  deriving DecidableEq, Repr

/-- The collection after one voting request. -/
def stepPoll (db : Collection Poll) : PollRequest → Collection Poll
  | .vote id optionId userId now => (vote db id optionId userId now).2
  | .changeVote id optionId userId now => (changeVote db id optionId userId now).2

/-- The collection after a sequence of voting requests, served one after another. -/
def runPoll (db : Collection Poll) (reqs : List PollRequest) : Collection Poll :=
  reqs.foldl stepPoll db

/-- The votes of an options array, option after option. -/
def votesOf (options : List PollOption) : List Nat :=
  (options.map (fun opt => opt.votes)).flatten

/-- All votes of a poll, option after option. -/
def allVotes (poll : Poll) : List Nat :=
  votesOf poll.options

/-- Every user id occurs at most once across all the options' vote lists. -/
def OneVote (poll : Poll) : Prop := (allVotes poll).Nodup

instance (poll : Poll) : Decidable (OneVote poll) := by
  unfold OneVote; infer_instance

/-- The update `Model.findByIdAndUpdate(id, update, { new: true })`: the
document after the update (nothing when no document has that id) and the
collection afterwards. -/
def findByIdAndUpdate {α : Type} (db : Collection α) (id : Nat) (update : α → α) :
    Option α × Collection α :=
  match db id with
  | none => (none, db)
  | some d => (some (update d), save db id (update d))

/-! ## Bookings (`models/Booking.js`, `routes/bookings.js`) -/

/-- Modelled from the spec: the user record of `models/User.js`, which is not
among the sources; its fields are those of the Identity store (name, email,
hashed credential, role, block, flat), which `createAdmin.js` also writes. -/
structure User where
  name : String
  email : String
  password : String
  role : String
  block : String
  flat : String
  deriving DecidableEq, Repr

/-- A booking document (`BookingSchema`). The field `user` is the id of the
owner, which the schema does not require: `none` is a booking stored without
one (`from_` and `to_` are the members `from` and `to`). -/
structure Booking where
  facility : String
  user : Option Nat
  date : Int
  from_ : Option String
  to_ : Option String
  status : String
  createdAt : Int
  deriving DecidableEq, Repr

/-- The test `['pending', 'approved', 'rejected', 'cancelled'].includes(status)`
on the `status` member of the request body (`none`: the body has no such
member). -/
def validBookingStatus (status : Option String) : Bool :=
  match status with
  | none => false
  | some s => ["pending", "approved", "rejected", "cancelled"].contains s

/-- The handler `router.patch('/:id/status')` of `routes/bookings.js`. -/
def bookingsPatchStatus (db : Collection Booking) (id : Nat) (userRole : String)
    (status : Option String) : Response Booking × Collection Booking :=
  if userRole ≠ "admin" then (Response.fail 403 "Forbidden", db)
  else if ¬ validBookingStatus status then (Response.fail 400 "Invalid status", db)
  else
    match findByIdAndUpdate db id (fun b => { b with status := status.getD b.status }) with
    | (none, _) => (Response.fail 404 "Not found", db)
    | (some booking, db1) => (Response.json booking, db1)

/-- The owner `populate('user', ...)` puts in place of the stored `user`: the
stored id when a user document has that id, and `null` when the booking has no
`user` or no user document has the id. -/
def populateUser (users : Collection User) (user : Option Nat) : Option Nat :=
  match user with
  | none => none
  | some owner =>
    match findById users owner with
    | none => none
    | some _ => some owner

/-- The handler `router.post('/:id/cancel')` of `routes/bookings.js`, with the
user collection that `populate` reads. When the populated `booking.user` is
`null`, reading `booking.user._id` throws, whatever the requester's role, and
the `catch` answers 500. -/
def bookingsCancel (users : Collection User) (db : Collection Booking) (id userId : Nat)
    (userRole : String) : Response Booking × Collection Booking :=
  match findById db id with
  | none => (Response.fail 404 "Booking not found", db)
  | some booking =>
    match populateUser users booking.user with
    | none => (Response.fail 500 "Server error", db)
    | some owner =>
      if owner ≠ userId ∧ userRole ≠ "admin" then
        (Response.fail 403 "Not authorized to cancel this booking", db)
      else if ¬ ["pending", "approved"].contains booking.status then
        (Response.fail 400 ("Cannot cancel a " ++ booking.status ++ " booking"), db)
      else
        let cancelled := { booking with status := "cancelled" }
        (Response.json cancelled, save db id cancelled)

/-! ## Maintenance requests and complaints (`models/Maintenance.js`, `routes/maintenance.js`) -/

/-- A maintenance or complaint document (`MaintenanceSchema`). -/
structure Maintenance where
  title : String
  description : String
  type : String
  category : String
  priority : String
  status : String
  location : String
  user : Nat
  assignedTo : Option Nat
  adminComments : Option String
  resolvedAt : Option Int
  createdAt : Int
  deriving DecidableEq, Repr

/-- The members `{ status, adminComments, assignedTo }` read from the body of a
status update (`none`: the member is absent). -/
structure StatusBody where
  status : Option String
  adminComments : Option String
  assignedTo : Option Nat
  deriving DecidableEq, Repr

/-- The object `updateData` built by the status handler, applied to a stored
record: `status` is always a key (an absent value leaves the stored status),
`adminComments` and `assignedTo` are keys only when truthy, and `resolvedAt`
is a key, set to the current time, exactly when `status === 'resolved'`. -/
def updateData (body : StatusBody) (now : Int) (request : Maintenance) : Maintenance :=
  { request with
    status := body.status.getD request.status
    adminComments :=
      match body.adminComments with
      | some c => if c ≠ "" then some c else request.adminComments
      | none => request.adminComments
    assignedTo :=
      match body.assignedTo with
      | some a => some a
      | none => request.assignedTo
    resolvedAt := if body.status = some "resolved" then some now else request.resolvedAt }

/-- The handler `router.patch('/:id/status')` of `routes/maintenance.js`. -/
def maintenancePatchStatus (db : Collection Maintenance) (id : Nat) (userRole : String)
    (body : StatusBody) (now : Int) : Response Maintenance × Collection Maintenance :=
  if userRole ≠ "admin" then
    (Response.fail 403 "Only administrators can update request status", db)
  else
    match findByIdAndUpdate db id (updateData body now) with
    | (none, _) => (Response.fail 404 "Request not found", db)
    | (some request, db1) => (Response.json request, db1)

/-- The handler `router.post('/:id/cancel')` of `routes/maintenance.js`. -/
def maintenanceCancel (db : Collection Maintenance) (id userId : Nat) (userRole : String) :
    Response Maintenance × Collection Maintenance :=
  match findById db id with
  | none => (Response.fail 404 "Request not found", db)
  | some request =>
    if request.user ≠ userId ∧ userRole ≠ "admin" then
      (Response.fail 403 "Not authorized to cancel this request", db)
    else if ¬ ["pending", "in_progress"].contains request.status then
      (Response.fail 400 ("Cannot cancel a " ++ request.status ++ " request"), db)
    else
      let cancelled := { request with status := "cancelled" }
      (Response.json cancelled, save db id cancelled)

/-! ## Creating and deleting documents -/

/-- The collection with no document. -/
def noDocuments {α : Type} : Collection α := fun _ => none

/-- The removal `doc.deleteOne()` of the document loaded under `id`. -/
def deleteOne {α : Type} (db : Collection α) (id : Nat) : Collection α :=
  fun k => if k = id then none else db k

/-- The truthiness test `!!value` on a string member of a body: the member is
present and not the empty string. -/
def truthy (value : Option String) : Bool :=
  match value with
  | none => false
  | some s => s != ""

/-- The `required` validator of a string path: a non-empty string. -/
def requiredString (value : Option String) : Bool := truthy value

/-- The `enum` validator of a string path: an absent value passes, a present
one must be one of the listed values. -/
def enumValid (values : List String) (value : Option String) : Bool :=
  match value with
  | none => true
  | some s => values.contains s

/-- The members of a create body that are paths of `BookingSchema` (`none`: the
member is absent); the model drops every other member. -/
structure BookingBody where
  facility : Option String
  user : Option Nat
  date : Option Int
  from_ : Option String
  to_ : Option String
  status : Option String
  createdAt : Option Int
  deriving DecidableEq, Repr

/-- The call `Booking.create(data)` on one object, against `BookingSchema`:
`facility` and `date` are required, `user` is not, `status` must pass the enum
and defaults to `pending`, `createdAt` defaults to the current time; nothing on
a validation failure. -/
def Booking.create (data : BookingBody) (now : Int) : Option Booking :=
  match data.facility, data.date with
  | some facility, some date =>
    if requiredString data.facility ∧
        enumValid ["pending", "approved", "rejected", "cancelled"] data.status then
      some { facility := facility, user := data.user, date := date, from_ := data.from_
             to_ := data.to_, status := data.status.getD "pending"
             createdAt := data.createdAt.getD now }
    else none
  | _, _ => none

/-- The call `Booking.create(docs)` on an array: every element is validated and
saved on its own, the element at position `i` under the id `newId + i`; the
result is the collection afterwards, the documents saved, and whether every
element passed validation (the call throws when one did not, the valid
elements being saved all the same). -/
def Booking.createMany (db : Collection Booking) (newId : Nat) (now : Int) :
    List BookingBody → Collection Booking × List Booking × Bool
  | [] => (db, [], true)
  | data :: rest =>
    match Booking.create data now with
    | some booking =>
      ((Booking.createMany (save db newId booking) (newId + 1) now rest).1,
        booking :: (Booking.createMany (save db newId booking) (newId + 1) now rest).2.1,
        (Booking.createMany (save db newId booking) (newId + 1) now rest).2.2)
    | none =>
      ((Booking.createMany db (newId + 1) now rest).1,
        (Booking.createMany db (newId + 1) now rest).2.1, false)

/-- The body of a create request as `express.json()` hands it over: one
object, or an array of objects. -/
inductive BookingPostBody where
  | object (data : BookingBody)
  | array (elements : List BookingBody)
  deriving DecidableEq, Repr

/-- What the create handler sends with `res.json`: the created booking, or the
array of created bookings. -/
inductive BookingPayload where
  | one (booking : Booking)
  | many (bookings : List Booking)
  deriving DecidableEq, Repr

/-- The handler `router.post('/')` of `routes/bookings.js`: `data = req.body`,
`data.user = req.userId`, then `Booking.create(data)`; `newId` is the `_id` the
store gives the (first) new document. On an object the assignment sets the
owner. On an array it sets a property `user` of the array itself, which
`Booking.create` does not read: every element is stored with the `user` it
carries, or without one. -/
def bookingsPost (db : Collection Booking) (newId userId : Nat) (body : BookingPostBody)
    (now : Int) : Response BookingPayload × Collection Booking :=
  match body with
  | .object data =>
    match Booking.create { data with user := some userId } now with
    | some booking => (Response.json (.one booking), save db newId booking)
    | none => (Response.fail 400 "Invalid data", db)
  | .array elements =>
    if (Booking.createMany db newId now elements).2.2 then
      (Response.json (.many (Booking.createMany db newId now elements).2.1),
        (Booking.createMany db newId now elements).1)
    else (Response.fail 400 "Invalid data", (Booking.createMany db newId now elements).1)

/-- The handler `router.delete('/:id')` of `routes/bookings.js`; its success
body `{ message: 'Booking deleted successfully' }` has no error and no document. -/
def bookingsDelete (db : Collection Booking) (id : Nat) (userRole : String) :
    Response Booking × Collection Booking :=
  if userRole ≠ "admin" then
    (Response.fail 403 "Only administrators can delete bookings", db)
  else
    match findById db id with
    | none => (Response.fail 404 "Booking not found", db)
    | some _ => ({ status := 200, error := none, doc := none }, deleteOne db id)

/-- A request to one of the mutating booking endpoints. -/
inductive BookingRequest where
  | post (newId userId : Nat) (body : BookingPostBody) (now : Int)
  | patchStatus (id : Nat) (userRole : String) (status : Option String)
  | delete (id : Nat) (userRole : String)
  | cancel (id userId : Nat) (userRole : String)
  deriving DecidableEq, Repr

/-- The bookings after one request. -/
def stepBooking (users : Collection User) (db : Collection Booking) :
    BookingRequest → Collection Booking
  | .post newId userId body now => (bookingsPost db newId userId body now).2
  | .patchStatus id userRole status => (bookingsPatchStatus db id userRole status).2
  | .delete id userRole => (bookingsDelete db id userRole).2
  | .cancel id userId userRole => (bookingsCancel users db id userId userRole).2

/-- The bookings after a sequence of requests, served one after another. -/
def runBookings (users : Collection User) (db : Collection Booking)
    (reqs : List BookingRequest) : Collection Booking :=
  reqs.foldl (stepBooking users) db

/-- Whether a request is a cancel, or a status update by a requester who is not
an admin. -/
def BookingRequest.cancelOrNonAdminUpdate : BookingRequest → Bool
  | .cancel _ _ _ => true
  | .patchStatus _ userRole _ => userRole != "admin"
  | _ => false

/-- Every stored booking has one of the four enum values as its status. -/
def BookingStatusesValid (db : Collection Booking) : Prop :=
  ∀ k booking, db k = some booking → validBookingStatus (some booking.status) = true

/-- The members of a create body that are paths of `MaintenanceSchema`. -/
structure MaintenanceBody where
  title : Option String
  description : Option String
  type : Option String
  category : Option String
  priority : Option String
  status : Option String
  location : Option String
  user : Option Nat
  assignedTo : Option Nat
  adminComments : Option String
  resolvedAt : Option Int
  createdAt : Option Int
  deriving DecidableEq, Repr

/-- The call `Maintenance.create(data)` against `MaintenanceSchema`: `title`,
`description`, `type`, `category`, `location` and `user` are required, the
four enum paths must pass their enum, `priority` defaults to `medium`, `status`
to `pending`, `createdAt` to the current time; nothing on a validation failure. -/
def Maintenance.create (data : MaintenanceBody) (now : Int) : Option Maintenance :=
  match data.title, data.description, data.type, data.category, data.location, data.user with
  | some title, some description, some type, some category, some location, some user =>
    if requiredString data.title ∧ requiredString data.description ∧
        requiredString data.location ∧
        ["maintenance", "complaint"].contains type ∧
        ["plumbing", "electrical", "housekeeping", "security", "elevator", "parking", "gym",
          "swimming_pool", "common_area", "other"].contains category ∧
        enumValid ["low", "medium", "high", "urgent"] data.priority ∧
        enumValid ["pending", "in_progress", "resolved", "cancelled"] data.status then
      some { title := title, description := description, type := type, category := category
             priority := data.priority.getD "medium", status := data.status.getD "pending"
             location := location, user := user, assignedTo := data.assignedTo
             adminComments := data.adminComments, resolvedAt := data.resolvedAt
             createdAt := data.createdAt.getD now }
    else none
  | _, _, _, _, _, _ => none

/-- The handler `router.post('/')` of `routes/maintenance.js`:
`Maintenance.create({ ...req.body, user: req.userId })`, answered 201. The text
of a validation failure is the store's `err.message`; the model answers
`Invalid data` in its place. -/
def maintenancePost (db : Collection Maintenance) (newId userId : Nat)
    (body : MaintenanceBody) (now : Int) : Response Maintenance × Collection Maintenance :=
  match Maintenance.create { body with user := some userId } now with
  | some request => ({ status := 201, error := none, doc := some request }, save db newId request)
  | none => (Response.fail 400 "Invalid data", db)

/-- A request to one of the mutating maintenance endpoints. -/
inductive MaintenanceRequest where
  | post (newId userId : Nat) (body : MaintenanceBody) (now : Int)
  | patchStatus (id : Nat) (userRole : String) (body : StatusBody) (now : Int)
  | cancel (id userId : Nat) (userRole : String)
  deriving DecidableEq, Repr

/-- The maintenance records after one request. -/
def stepMaintenance (db : Collection Maintenance) : MaintenanceRequest → Collection Maintenance
  | .post newId userId body now => (maintenancePost db newId userId body now).2
  | .patchStatus id userRole body now => (maintenancePatchStatus db id userRole body now).2
  | .cancel id userId userRole => (maintenanceCancel db id userId userRole).2

/-- The maintenance records after a sequence of requests, served one after another. -/
def runMaintenance (db : Collection Maintenance) (reqs : List MaintenanceRequest) :
    Collection Maintenance :=
  reqs.foldl stepMaintenance db

/-- Whether a request is a cancel, or a status update by a requester who is not
an admin. -/
def MaintenanceRequest.cancelOrNonAdminUpdate : MaintenanceRequest → Bool
  | .cancel _ _ _ => true
  | .patchStatus _ userRole _ _ => userRole != "admin"
  | _ => false

/-! ## Lost and found items (`models/LostFound.js`, `routes/lostfound.js`) -/

/-- A lost-and-found document (`LostFoundSchema`). The status is optional: the
status handler can store an item without one. -/
structure LostFound where
  type : String
  title : String
  description : Option String
  location : Option String
  date : Int
  image : Option String
  status : Option String
  user : Nat
  contact : Option String
  createdAt : Int
  deriving DecidableEq, Repr

/-- The members of a create body that are paths of `LostFoundSchema`; `date`
is the value the member stands for, `none` when it is absent or the empty
string, and the number 0 is falsy like them. -/
structure LostFoundBody where
  type : Option String
  title : Option String
  description : Option String
  location : Option String
  date : Option Int
  image : Option String
  status : Option String
  user : Option Nat
  contact : Option String
  createdAt : Option Int
  deriving DecidableEq, Repr

/-- The call `LostFound.create(data)` against `LostFoundSchema`: `type`,
`title`, `date` and `user` are required, `type` and `status` must pass their
enum, `status` defaults to `open`, `createdAt` to the current time; nothing on
a validation failure. -/
def LostFound.create (data : LostFoundBody) (now : Int) : Option LostFound :=
  match data.type, data.title, data.date, data.user with
  | some type, some title, some date, some user =>
    if requiredString data.title ∧ ["lost", "found"].contains type ∧
        enumValid ["open", "resolved"] data.status then
      some { type := type, title := title, description := data.description
             location := data.location, date := date, image := data.image
             status := some (data.status.getD "open"), user := user, contact := data.contact
             createdAt := data.createdAt.getD now }
    else none
  | _, _, _, _ => none

/-- The handler `router.post('/')` of `routes/lostfound.js`. The parameter
`upload` is the outcome of `upload.single('image')`: the error text sent back,
or the name of the stored file, if one was sent. The text of a validation
failure is the store's `createErr.message`; the model answers `Invalid data`
in its place. -/
def lostfoundPost (db : Collection LostFound) (newId userId : Nat)
    (upload : Except String (Option String)) (body : LostFoundBody) (now : Int) :
    Response LostFound × Collection LostFound :=
  match upload with
  | .error msg => (Response.fail 400 msg, db)
  | .ok file =>
    if ¬ truthy body.title ∨ ¬ truthy body.type ∨ body.date = none ∨ body.date = some 0 ∨
        ¬ truthy body.location ∨ ¬ truthy body.contact then
      (Response.fail 400 "Missing required fields", db)
    else
      let data := { body with user := some userId }
      let data :=
        match file with
        | some filename => { data with image := some ("/uploads/lostfound/" ++ filename) }
        | none => data
      match LostFound.create data now with
      | some item => (Response.json item, save db newId item)
      | none => (Response.fail 400 "Invalid data", db)

/-- The handler `router.patch('/:id/status')` of `routes/lostfound.js`:
`item.status = req.body.status`, then `item.save()`, which validates the new
status against the enum and throws on a failure, answered 500. -/
def lostfoundPatchStatus (db : Collection LostFound) (id userId : Nat) (userRole : String)
    (status : Option String) : Response LostFound × Collection LostFound :=
  match findById db id with
  | none => (Response.fail 404 "Item not found", db)
  | some item =>
    if item.user ≠ userId ∧ userRole ≠ "admin" then (Response.fail 403 "Not authorized", db)
    else
      let updated := { item with status := status }
      if enumValid ["open", "resolved"] status then (Response.json updated, save db id updated)
      else (Response.fail 500 "Server error", db)

/-! ## Listing maintenance records (`router.get('/')` of `routes/maintenance.js`) -/

/-- The query-string members the list handler reads (`none`: absent or empty;
the dates are the parsed `new Date(...)` values). -/
structure ListParams where
  status : Option String
  type : Option String
  startDate : Option Int
  endDate : Option Int
  deriving DecidableEq, Repr

/-- The object `query` the list handler passes to `Maintenance.find`: each key
is present or absent. -/
structure MaintenanceQuery where
  user : Option Nat
  status : Option String
  type : Option String
  createdAt : Option (Int × Int)
  deriving DecidableEq, Repr

/-- The construction of `query`: `user` for a requester who is not an admin,
`status` and `type` when the parameter is truthy, the `createdAt` range when
both dates are given. -/
def buildQuery (userId : Nat) (userRole : String) (params : ListParams) : MaintenanceQuery :=
  { user := if userRole ≠ "admin" then some userId else none
    status := if truthy params.status then params.status else none
    type := if truthy params.type then params.type else none
    createdAt :=
      match params.startDate, params.endDate with
      | some startDate, some endDate => some (startDate, endDate)
      | _, _ => none }

/-- Whether a record matches `query`: every key that is present must match,
`createdAt` by `$gte` and `$lte`. -/
def matchesQuery (query : MaintenanceQuery) (request : Maintenance) : Bool :=
  (match query.user with
    | some u => request.user == u
    | none => true) &&
  (match query.status with
    | some s => request.status == s
    | none => true) &&
  (match query.type with
    | some t => request.type == t
    | none => true) &&
  (match query.createdAt with
    | some (startDate, endDate) =>
      decide (startDate ≤ request.createdAt) && decide (request.createdAt ≤ endDate)
    | none => true)

/-- The handler `router.get('/')` of `routes/maintenance.js` over the stored
records `docs`: `Maintenance.find(query).sort({ createdAt: -1 })`. -/
def maintenanceList (docs : List Maintenance) (userId : Nat) (userRole : String)
    (params : ListParams) : Response (List Maintenance) :=
  Response.json (((docs.filter (matchesQuery (buildQuery userId userRole params)))).mergeSort
    (fun a b => decide (b.createdAt ≤ a.createdAt)))

/-! ## Monthly statistics (`router.get('/stats/monthly')` of `routes/maintenance.js`) -/

/-- The day number (days since 1 January 1970) of a day of the civil calendar,
as `MakeDay` computes it: `month` is a month index that may lie outside
`0..11` and `day` a day of the month that may lie outside the month. -/
def makeDay (year month day : Int) : Int :=
  let ym := year + month / 12
  let mn := month % 12
  let y := if mn < 2 then ym - 1 else ym
  let era := y / 400
  let yoe := y - era * 400
  let mp := if mn < 2 then mn + 10 else mn - 2
  let doy := (153 * mp + 2) / 5
  let doe := yoe * 365 + yoe / 4 - yoe / 100 + doy
  era * 146097 + doe - 719468 + (day - 1)

/-- The date `new Date(year, month, day)`, in milliseconds: local midnight of
that day, for a server whose local time is `offset` milliseconds ahead of UTC;
a year from 0 to 99 stands for 1900 + year. -/
def newDate (offset : Int) (year month day : Int) : Int :=
  let y := if 0 ≤ year ∧ year ≤ 99 then 1900 + year else year
  makeDay y month day * 86400000 - offset

/-- The window of the statistics handler: `startDate = new Date(year, month - 1, 1)`
and `endDate = new Date(year, month, 0)`. -/
def statsWindow (offset : Int) (year month : Int) : Int × Int :=
  (newDate offset year (month - 1) 1, newDate offset year month 0)

/-- The `_id` of a statistics group: `{ type, category, status }`. -/
structure GroupId where
  type : String
  category : String
  status : String
  deriving DecidableEq, Repr

/-- One document emitted by the `$group` stage. -/
structure StatGroup where
  _id : GroupId
  count : Nat
  avgResolutionTime : Option ℚ
  deriving DecidableEq

/-- The `_id` expression of the `$group` stage on one record. -/
def groupId (request : Maintenance) : GroupId :=
  { type := request.type, category := request.category, status := request.status }

/-- The operand of `$avg` on one record: for a resolved record,
`(resolvedAt - createdAt) / (1000 * 60 * 60)`, which is null when `resolvedAt`
is missing; null for any other record. Arithmetic is exact. -/
def resolutionHours (request : Maintenance) : Option ℚ :=
  if request.status = "resolved" then
    request.resolvedAt.map (fun t => ((t - request.createdAt : Int) : ℚ) / (1000 * 60 * 60))
  else none

/-- The accumulator `$avg`: the mean of the operands that are numbers, null
when none is. -/
def avg (operands : List (Option ℚ)) : Option ℚ :=
  let numbers := operands.filterMap (fun x => x)
  if numbers = [] then none else some (numbers.sum / numbers.length)

/-- The stage `$match: { createdAt: { $gte: startDate, $lte: endDate } }`. -/
def matchStage (docs : List Maintenance) (startDate endDate : Int) : List Maintenance :=
  docs.filter (fun r => decide (startDate ≤ r.createdAt) && decide (r.createdAt ≤ endDate))

/-- The stage `$group`: one document for each distinct `_id`, with
`count: { $sum: 1 }` and the `$avg` of the resolution hours over the records of
the group. -/
def groupStage (docs : List Maintenance) : List StatGroup :=
  (docs.map groupId).dedup.map (fun g =>
    { _id := g
      count := (docs.filter (fun r => groupId r == g)).length
      avgResolutionTime := avg ((docs.filter (fun r => groupId r == g)).map resolutionHours) })

/-- The pipeline `Maintenance.aggregate([{ $match }, { $group }])`. -/
def aggregate (docs : List Maintenance) (startDate endDate : Int) : List StatGroup :=
  groupStage (matchStage docs startDate endDate)

/-- The handler `router.get('/stats/monthly')`, for numeric `year` and `month`. -/
def maintenanceStatsMonthly (docs : List Maintenance) (userRole : String) (offset : Int)
    (year month : Int) : Response (List StatGroup) :=
  if userRole ≠ "admin" then Response.fail 403 "Only administrators can view statistics"
  else
    Response.json
      (aggregate docs (statsWindow offset year month).1 (statsWindow offset year month).2)

/-- The records of `docs` that are resolved and carry a `resolvedAt`. -/
def resolvedSamples (docs : List Maintenance) : List Maintenance :=
  docs.filter (fun r => r.status == "resolved" && r.resolvedAt.isSome)

/-- The arithmetic mean, in hours, of `resolvedAt - createdAt` over the records
of `docs` that are resolved and carry a `resolvedAt`; nothing when there is no
such record. This is the average as the specification words it. -/
def meanResolutionHours (docs : List Maintenance) : Option ℚ :=
  if resolvedSamples docs = [] then none
  else
    some (((resolvedSamples docs).map
        (fun r => (((r.resolvedAt.getD 0) - r.createdAt : Int) : ℚ) / 3600000)).sum /
      (resolvedSamples docs).length)

/-! ## Deleting a lost-and-found item (`router.delete('/:id')` of `routes/lostfound.js`) -/

/-- The call `fs.unlink(path)` on the stored files: it throws when `fails`
says so (a missing file, a permission), and removes the file otherwise. -/
def unlink (fails : Bool) (files : List String) (path : String) : Except String (List String) :=
  if fails then .error "unlink failed" else .ok (files.erase path)

/-- The outcome of the delete handler: the answer, the collection and the
stored image files afterwards, and the paths handed to `fs.unlink`. -/
structure DeleteOutcome where
  response : Response LostFound
  items : Collection LostFound
  files : List String
  unlinkCalls : List String

/-- The handler `router.delete('/:id')` of `routes/lostfound.js`; a file is
named by the item's `image`. An error thrown by `fs.unlink` is caught and
logged, and the handler goes on to `item.deleteOne()`. The success body
`{ message: 'Item deleted successfully' }` has no error and no document. -/
def lostfoundDelete (db : Collection LostFound) (files : List String) (id : Nat)
    (userRole : String) (unlinkFails : Bool) : DeleteOutcome :=
  if userRole ≠ "admin" then
    { response := Response.fail 403 "Only administrators can remove items", items := db
      files := files, unlinkCalls := [] }
  else
    match findById db id with
    | none =>
      { response := Response.fail 404 "Item not found", items := db, files := files
        unlinkCalls := [] }
    | some item =>
      match item.image with
      | some image =>
        if truthy (some image) then
          { response := { status := 200, error := none, doc := none }, items := deleteOne db id
            files :=
              match unlink unlinkFails files image with
              | .ok files1 => files1
              | .error _ => files
            unlinkCalls := [image] }
        else
          { response := { status := 200, error := none, doc := none }, items := deleteOne db id
            files := files, unlinkCalls := [] }
      | none =>
        { response := { status := 200, error := none, doc := none }, items := deleteOne db id
          files := files, unlinkCalls := [] }

/-! ## Chats (`models/Chat.js`, `routes/chat.js`) -/

/-- One message of a chat (`ChatMessageSchema`). -/
structure ChatMessage where
  sender : Nat
  content : String
  createdAt : Int
  deriving DecidableEq, Repr

/-- A chat document (`ChatSchema`). -/
structure Chat where
  itemId : Nat
  participants : List Nat
  messages : List ChatMessage
  createdAt : Int
  updatedAt : Int
  deriving DecidableEq, Repr

/-- The characters `String.prototype.trim` removes: white space and line
terminators. -/
def isTrimmed (c : Char) : Bool :=
  [0x9, 0xA, 0xB, 0xC, 0xD, 0x20, 0xA0, 0x1680, 0x2000, 0x2001, 0x2002, 0x2003, 0x2004, 0x2005,
    0x2006, 0x2007, 0x2008, 0x2009, 0x200A, 0x2028, 0x2029, 0x202F, 0x205F, 0x3000,
    0xFEFF].contains c.toNat

/-- The test `!content?.trim()`: the content is absent, or nothing is left of
it after trimming. -/
def blankContent (content : Option String) : Bool :=
  match content with
  | none => true
  | some s => s.toList.all isTrimmed

/-- The filter of the two `Chat.findOne` calls: the chat is of the item, and
the requester is among its participants or is the item's owner. -/
def chatFilter (itemId userId : Nat) (item : LostFound) (chat : Chat) : Bool :=
  chat.itemId == itemId && (chat.participants.contains userId || item.user == userId)

/-- The chat `Chat.create({ itemId, participants: [req.userId, item.user], messages: [] })`;
the dates default to the current time. -/
def newChat (itemId userId : Nat) (item : LostFound) (now : Int) : Chat :=
  { itemId := itemId, participants := [userId, item.user], messages := [], createdAt := now
    updatedAt := now }

/-- The chat after `chat.messages.push({ sender, content })` and `chat.save()`,
whose `pre('save')` hook sets `updatedAt`. -/
def pushMessage (chat : Chat) (sender : Nat) (content : String) (now : Int) : Chat :=
  { chat with
    messages := chat.messages ++ [{ sender := sender, content := content, createdAt := now }]
    updatedAt := now }

/-- The effect of `chat.save()` on the stored chats, where `chat` is the
document `Chat.findOne(filter)` returned: the first chat that passes the filter
is replaced by its updated form, the others are as they were. -/
def saveFirst (filter : Chat → Bool) (update : Chat → Chat) : List Chat → List Chat
  | [] => []
  | chat :: rest =>
    if filter chat then update chat :: rest else chat :: saveFirst filter update rest

/-- The handler `router.get('/item/:itemId')` over the stored chats, in store
order. -/
def chatGet (items : Collection LostFound) (chats : List Chat) (itemId userId : Nat)
    (now : Int) : Response Chat × List Chat :=
  match findById items itemId with
  | none => (Response.fail 404 "Item not found", chats)
  | some item =>
    match chats.find? (chatFilter itemId userId item) with
    | some chat => (Response.json chat, chats)
    | none => (Response.json (newChat itemId userId item now),
        chats ++ [newChat itemId userId item now])

/-- The handler `router.post('/item/:itemId/message')` over the stored chats. -/
def chatPostMessage (items : Collection LostFound) (chats : List Chat) (itemId userId : Nat)
    (content : Option String) (now : Int) : Response Chat × List Chat :=
  match content with
  | none => (Response.fail 400 "Message content is required", chats)
  | some text =>
    if blankContent (some text) then (Response.fail 400 "Message content is required", chats)
    else
      match findById items itemId with
      | none => (Response.fail 404 "Item not found", chats)
      | some item =>
        match chats.find? (chatFilter itemId userId item) with
        | some chat =>
          (Response.json (pushMessage chat userId text now),
            saveFirst (chatFilter itemId userId item)
              (fun found => pushMessage found userId text now) chats)
        | none =>
          (Response.json (pushMessage (newChat itemId userId item now) userId text now),
            chats ++ [pushMessage (newChat itemId userId item now) userId text now])

/-- A request to one of the two chat endpoints. -/
inductive ChatRequest where
  | get (itemId userId : Nat) (now : Int)
  | postMessage (itemId userId : Nat) (content : Option String) (now : Int)
  deriving DecidableEq, Repr

/-- The stored chats after one request. -/
def stepChat (items : Collection LostFound) (chats : List Chat) : ChatRequest → List Chat
  | .get itemId userId now => (chatGet items chats itemId userId now).2
  | .postMessage itemId userId content now =>
    (chatPostMessage items chats itemId userId content now).2

/-- The stored chats after a sequence of requests, served one after another. -/
def runChats (items : Collection LostFound) (chats : List Chat) (reqs : List ChatRequest) :
    List Chat :=
  reqs.foldl (stepChat items) chats

/-- The item of a chat together with the user who opened it, its first
participant. -/
def chatKey (chat : Chat) : Nat × Option Nat := (chat.itemId, chat.participants.head?)

/-! ## Profiles (`router.put('/:id')` of `routes/residents.js`) -/

/-- The members of an update body that are fields of a user (`none`: absent). -/
structure ProfileBody where
  name : Option String
  email : Option String
  password : Option String
  role : Option String
  block : Option String
  flat : Option String
  deriving DecidableEq, Repr

/-- The update `findByIdAndUpdate(id, updates)` applies to a user: every member
of `updates` that is present replaces the stored field. -/
def applyUpdates (updates : ProfileBody) (user : User) : User :=
  { name := updates.name.getD user.name, email := updates.email.getD user.email
    password := updates.password.getD user.password, role := updates.role.getD user.role
    block := updates.block.getD user.block, flat := updates.flat.getD user.flat }

/-- The handler `router.put('/:id')` of `routes/residents.js`: `updates = req.body`,
`delete updates.password`, then `User.findByIdAndUpdate(id, updates, { new: true })`.
The answer is the updated user, read with `select('-password')` (the password
is left out, shown here as the empty string), or `null` when no user has that
id; it is a 200 either way. -/
def residentsPut (db : Collection User) (id userId : Nat) (userRole : String)
    (body : ProfileBody) : Response User × Collection User :=
  if userId ≠ id ∧ userRole ≠ "admin" then (Response.fail 403 "Forbidden", db)
  else
    let updates := { body with password := none }
    match findByIdAndUpdate db id (applyUpdates updates) with
    | (none, db1) => ({ status := 200, error := none, doc := none }, db1)
    | (some user, db1) => (Response.json { user with password := "" }, db1)

/-! ## Sample data -/

/-- A poll with two options, one vote on each. -/
def pollA : Poll :=
  { question := "Repaint the lobby?"
    options := [{ _id := 10, text := "yes", votes := [7] }, { _id := 11, text := "no", votes := [8] }]
    endDate := 1000, notice := 3, createdAt := 0 }

/-- A collection holding `pollA` under id 1. -/
def pollDb : Collection Poll := fun k => if k = 1 then some pollA else none

/-- A booking of user 7 with the given status. -/
def bookingOf (status : String) : Booking :=
  { facility := "Clubhouse", user := some 7, date := 5000, from_ := some "10:00"
    to_ := some "12:00"
    status := status, createdAt := 100 }

/-- A collection holding one booking of user 7, with the given status, under id 1. -/
def bookingDb (status : String) : Collection Booking :=
  fun k => if k = 1 then some (bookingOf status) else none

/-- A maintenance request of user 7 with the given status. -/
def requestOf (status : String) : Maintenance :=
  { title := "Leaking tap", description := "Kitchen tap drips", type := "maintenance"
    category := "plumbing", priority := "medium", status := status, location := "B-204"
    user := 7, assignedTo := some 2, adminComments := some "plumber booked"
    resolvedAt := none, createdAt := 100 }

/-- A collection holding one request of user 7, with the given status, under id 1. -/
def requestDb (status : String) : Collection Maintenance :=
  fun k => if k = 1 then some (requestOf status) else none

/-- A status-update body that carries the given status and nothing else. -/
def statusOnly (status : String) : StatusBody :=
  { status := some status, adminComments := none, assignedTo := none }

/-- A cancel by the owner, a cancel by an admin and a status update by the
owner, all on booking 1. -/
def sampleBookingReqs : List BookingRequest :=
  [.cancel 1 7 "resident", .cancel 1 2 "admin", .patchStatus 1 "resident" (some "approved")]

/-- A cancel by the owner, a cancel by an admin and a status update by the
owner, all on maintenance record 1. -/
def sampleMaintenanceReqs : List MaintenanceRequest :=
  [.cancel 1 7 "resident", .cancel 1 2 "admin",
    .patchStatus 1 "resident" (statusOnly "pending") 900]

/-- A create body for a booking that carries no `user` member. -/
def ownerlessBody : BookingBody :=
  { facility := some "Clubhouse", user := none, date := some 5000, from_ := none, to_ := none
    status := none, createdAt := none }

/-- A create body for a booking, carrying the given status member. -/
def bookingBody (status : Option String) : BookingBody :=
  { facility := some "Clubhouse", user := some 99, date := some 5000, from_ := some "10:00"
    to_ := some "12:00", status := status, createdAt := none }

/-- A create body for a maintenance request, carrying the given status,
`resolvedAt` and `createdAt` members. -/
def requestBody (status : Option String) (resolvedAt createdAt : Option Int) : MaintenanceBody :=
  { title := some "Leaking tap", description := some "Kitchen tap drips"
    type := some "maintenance", category := some "plumbing", priority := none
    status := status, location := some "B-204", user := some 99, assignedTo := none
    adminComments := none, resolvedAt := resolvedAt, createdAt := createdAt }

/-- A create body for a lost-and-found item, carrying the given status member. -/
def itemBody (status : Option String) : LostFoundBody :=
  { type := some "lost", title := some "Blue umbrella", description := none
    location := some "Lobby", date := some 4000, image := none, status := status
    user := some 99, contact := some "B-204", createdAt := none }

/-- A lost-and-found item of user 7 with the given status. -/
def itemOf (status : String) : LostFound :=
  { type := "lost", title := "Blue umbrella", description := none, location := some "Lobby"
    date := 4000, image := none, status := some status, user := 7, contact := some "B-204"
    createdAt := 100 }

/-- A collection holding one item of user 7, with the given status, under id 1. -/
def itemDb (status : String) : Collection LostFound :=
  fun k => if k = 1 then some (itemOf status) else none

/-- A query string with none of the four parameters. -/
def noParams : ListParams :=
  { status := none, type := none, startDate := none, endDate := none }

/-- A query string that asks for resolved records created from 0 to 1000. -/
def resolvedParams : ListParams :=
  { status := some "resolved", type := none, startDate := some 0, endDate := some 1000 }

/-- A maintenance request with the given owner, status and dates. -/
def recordOf (user : Nat) (status : String) (createdAt : Int) (resolvedAt : Option Int) :
    Maintenance :=
  { title := "Leaking tap", description := "Kitchen tap drips", type := "maintenance"
    category := "plumbing", priority := "medium", status := status, location := "B-204"
    user := user, assignedTo := none, adminComments := none, resolvedAt := resolvedAt
    createdAt := createdAt }

/-- Three resolved plumbing requests created within the first two hours of
the epoch: one resolved after two hours, one that lacks `resolvedAt`, one
resolved after one hour. -/
def resolvedDocs : List Maintenance :=
  [recordOf 7 "resolved" 0 (some 7200000), recordOf 8 "resolved" 0 none,
    recordOf 7 "resolved" 3600000 (some 7200000)]

/-- One request created at noon (UTC) on 31 January 2024. -/
def lastDayDocs : List Maintenance := [recordOf 7 "pending" 1706702400000 none]

/-- An item of user 7 with the given image. -/
def itemWithImage (image : Option String) : LostFound :=
  { type := "found", title := "Keys", description := none, location := some "Gate"
    date := 4000, image := image, status := some "open", user := 7, contact := some "B-204"
    createdAt := 100 }

/-- A collection holding one item of user 7, with the given image, under id 1. -/
def imageDb (image : Option String) : Collection LostFound :=
  fun k => if k = 1 then some (itemWithImage image) else none

/-- The resident with id 7. -/
def residentSeven : User :=
  { name := "Asha", email := "asha@society.com", password := "hash-7", role := "resident"
    block := "B", flat := "204" }

/-- A collection holding the resident under id 7. -/
def userDb : Collection User := fun k => if k = 7 then some residentSeven else none

/-- An update body that asks for the role `admin` and a new password. -/
def promoteBody : ProfileBody :=
  { name := none, email := none, password := some "hash-x", role := some "admin", block := none
    flat := none }

/-- A chat on item 1 between user 8 and the owner 7, with one message. -/
def chatEight : Chat :=
  { itemId := 1, participants := [8, 7]
    messages := [{ sender := 8, content := "Is it blue?", createdAt := 40 }], createdAt := 40
    updatedAt := 40 }

/-! ## Lemmas on the options array -/

theorem votesOf_cons (opt : PollOption) (rest : List PollOption) :
    votesOf (opt :: rest) = opt.votes ++ votesOf rest := by
  simp [votesOf]

theorem mem_votesOf {options : List PollOption} {u : Nat} :
    u ∈ votesOf options ↔ ∃ opt ∈ options, u ∈ opt.votes := by
  simp [votesOf]

theorem hasAlreadyVoted_iff (poll : Poll) (userId : Nat) :
    hasAlreadyVoted poll userId = true ↔ ∃ opt ∈ poll.options, userId ∈ opt.votes := by
  simp [hasAlreadyVoted, List.any_eq_true]

theorem hasAlreadyVoted_false_iff (poll : Poll) (userId : Nat) :
    hasAlreadyVoted poll userId = false ↔ ∀ opt ∈ poll.options, userId ∉ opt.votes := by
  rw [← Bool.not_eq_true, hasAlreadyVoted_iff]
  push_neg
  rfl

theorem optionsId_none_iff (options : List PollOption) (optionId : Nat) :
    optionsId options optionId = none ↔ ∀ opt ∈ options, opt._id ≠ optionId := by
  simp [optionsId, List.find?_eq_none]

theorem optionsId_isSome_iff (options : List PollOption) (optionId : Nat) :
    (∃ opt, optionsId options optionId = some opt) ↔ ∃ opt ∈ options, opt._id = optionId := by
  rw [← Option.isSome_iff_exists, ← Option.ne_none_iff_isSome, Ne, optionsId_none_iff]
  push_neg
  rfl

theorem votesOf_pushVote_perm (options : List PollOption) (optionId userId : Nat)
    (h : ∃ opt ∈ options, opt._id = optionId) :
    (votesOf (pushVote options optionId userId)).Perm (userId :: votesOf options) := by
  induction options with
  | nil => simp at h
  | cons opt rest ih =>
    by_cases hid : opt._id = optionId
    · simp only [pushVote, hid, if_true, votesOf_cons]
      have : (opt.votes ++ [userId] ++ votesOf rest).Perm (userId :: (opt.votes ++ votesOf rest)) := by
        rw [List.append_assoc]
        exact List.perm_middle
      exact this
    · simp only [pushVote, hid, if_false, votesOf_cons]
      have h2 : ∃ o ∈ rest, o._id = optionId := by
        obtain ⟨o, ho, hoid⟩ := h
        rcases List.mem_cons.mp ho with rfl | ho
        · exact absurd hoid hid
        · exact ⟨o, ho, hoid⟩
      exact ((ih h2).append_left opt.votes).trans List.perm_middle

theorem votesOf_removeVotes (options : List PollOption) (userId : Nat) :
    votesOf (removeVotes options userId) = (votesOf options).filter (fun v => v != userId) := by
  induction options with
  | nil => rfl
  | cons opt rest ih =>
    have : removeVotes (opt :: rest) userId =
        { opt with votes := opt.votes.filter (fun v => v != userId) } :: removeVotes rest userId := rfl
    rw [this, votesOf_cons, votesOf_cons, ih, List.filter_append]

theorem removeVotes_ids (options : List PollOption) (userId : Nat) :
    (removeVotes options userId).map (fun opt => opt._id) = options.map (fun opt => opt._id) := by
  simp [removeVotes]

theorem optionsId_removeVotes_none_iff (options : List PollOption) (optionId userId : Nat) :
    optionsId (removeVotes options userId) optionId = none ↔ optionsId options optionId = none := by
  rw [optionsId_none_iff, optionsId_none_iff]
  simp [removeVotes]

/-! ## Effect of the voting handlers on one stored poll -/

theorem oneVote_pushVote (poll : Poll) (optionId userId : Nat) (hinv : OneVote poll)
    (hnew : ∀ opt ∈ poll.options, userId ∉ opt.votes)
    (hopt : ∃ opt ∈ poll.options, opt._id = optionId) :
    OneVote { poll with options := pushVote poll.options optionId userId } := by
  unfold OneVote allVotes at *
  rw [(votesOf_pushVote_perm poll.options optionId userId hopt).nodup_iff, List.nodup_cons]
  refine ⟨?_, hinv⟩
  rw [mem_votesOf]
  rintro ⟨opt, ho, hu⟩
  exact hnew opt ho hu

theorem oneVote_changeVote (poll : Poll) (optionId userId : Nat) (hinv : OneVote poll)
    (hopt : ∃ opt ∈ poll.options, opt._id = optionId) :
    OneVote { poll with options := pushVote (removeVotes poll.options userId) optionId userId } := by
  unfold OneVote allVotes at *
  have hopt2 : ∃ opt ∈ removeVotes poll.options userId, opt._id = optionId := by
    obtain ⟨opt, ho, hid⟩ := hopt
    exact ⟨_, List.mem_map_of_mem _ ho, hid⟩
  rw [(votesOf_pushVote_perm _ optionId userId hopt2).nodup_iff, List.nodup_cons,
    votesOf_removeVotes]
  refine ⟨?_, hinv.filter _⟩
  simp [List.mem_filter]

/-! The five ways through `vote` and the four through `changeVote`. -/

theorem vote_notFound (db : Collection Poll) (id optionId userId : Nat) (now : Int)
    (hdb : db id = none) :
    vote db id optionId userId now = (Response.fail 404 "Poll not found", db) := by
  simp [vote, findById, hdb]

theorem vote_ended (db : Collection Poll) (id optionId userId : Nat) (now : Int) (poll : Poll)
    (hdb : db id = some poll) (hend : poll.endDate < now) :
    vote db id optionId userId now = (Response.fail 400 "Poll has ended", db) := by
  simp [vote, findById, hdb, hend]

theorem vote_already (db : Collection Poll) (id optionId userId : Nat) (now : Int) (poll : Poll)
    (hdb : db id = some poll) (hend : ¬ poll.endDate < now)
    (hv : hasAlreadyVoted poll userId = true) :
    vote db id optionId userId now =
      (Response.fail 400 "You have already voted in this poll", db) := by
  simp [vote, findById, hdb, hend, hv]

theorem vote_noOption (db : Collection Poll) (id optionId userId : Nat) (now : Int) (poll : Poll)
    (hdb : db id = some poll) (hend : ¬ poll.endDate < now)
    (hv : hasAlreadyVoted poll userId = false) (ho : optionsId poll.options optionId = none) :
    vote db id optionId userId now = (Response.fail 404 "Option not found", db) := by
  simp [vote, findById, hdb, hend, hv, ho]

theorem vote_ok (db : Collection Poll) (id optionId userId : Nat) (now : Int) (poll : Poll)
    (opt : PollOption)
    (hdb : db id = some poll) (hend : ¬ poll.endDate < now)
    (hv : hasAlreadyVoted poll userId = false) (ho : optionsId poll.options optionId = some opt) :
    vote db id optionId userId now =
      (Response.json { poll with options := pushVote poll.options optionId userId },
        save db id { poll with options := pushVote poll.options optionId userId }) := by
  simp [vote, findById, hdb, hend, hv, ho]

theorem changeVote_notFound (db : Collection Poll) (id optionId userId : Nat) (now : Int)
    (hdb : db id = none) :
    changeVote db id optionId userId now = (Response.fail 404 "Poll not found", db) := by
  simp [changeVote, findById, hdb]

theorem changeVote_ended (db : Collection Poll) (id optionId userId : Nat) (now : Int)
    (poll : Poll) (hdb : db id = some poll) (hend : poll.endDate < now) :
    changeVote db id optionId userId now = (Response.fail 400 "Poll has ended", db) := by
  simp [changeVote, findById, hdb, hend]

theorem changeVote_noOption (db : Collection Poll) (id optionId userId : Nat) (now : Int)
    (poll : Poll) (hdb : db id = some poll) (hend : ¬ poll.endDate < now)
    (ho : optionsId (removeVotes poll.options userId) optionId = none) :
    changeVote db id optionId userId now = (Response.fail 404 "Option not found", db) := by
  simp [changeVote, findById, hdb, hend, ho]

theorem changeVote_ok (db : Collection Poll) (id optionId userId : Nat) (now : Int)
    (poll : Poll) (opt : PollOption) (hdb : db id = some poll) (hend : ¬ poll.endDate < now)
    (ho : optionsId (removeVotes poll.options userId) optionId = some opt) :
    changeVote db id optionId userId now =
      (Response.json
          { poll with options := pushVote (removeVotes poll.options userId) optionId userId },
        save db id
          { poll with options := pushVote (removeVotes poll.options userId) optionId userId }) := by
  simp [changeVote, findById, hdb, hend, ho]

theorem save_same {α : Type} (db : Collection α) (id : Nat) (d : α) : save db id d id = some d := by
  simp [save]

theorem save_other {α : Type} (db : Collection α) (id k : Nat) (d : α) (hk : k ≠ id) :
    save db id d k = db k := by
  simp [save, hk]

/-- What `vote` does to the poll stored under `k`: nothing, or (when it is the
poll voted on, the user had no vote in it and the option exists) the push. -/
theorem vote_store (db : Collection Poll) (id optionId userId : Nat) (now : Int) (k : Nat) :
    (vote db id optionId userId now).2 k = db k ∨
    (k = id ∧ ∃ poll, db k = some poll ∧ ¬ poll.endDate < now ∧
      (∀ opt ∈ poll.options, userId ∉ opt.votes) ∧
      (∃ opt ∈ poll.options, opt._id = optionId) ∧
      (vote db id optionId userId now).2 k =
        some { poll with options := pushVote poll.options optionId userId }) := by
  cases hdb : db id with
  | none => left; rw [vote_notFound db id optionId userId now hdb]
  | some poll =>
    by_cases hend : poll.endDate < now
    · left; rw [vote_ended db id optionId userId now poll hdb hend]
    · cases hv : hasAlreadyVoted poll userId with
      | true => left; rw [vote_already db id optionId userId now poll hdb hend hv]
      | false =>
        cases ho : optionsId poll.options optionId with
        | none => left; rw [vote_noOption db id optionId userId now poll hdb hend hv ho]
        | some opt =>
          rw [vote_ok db id optionId userId now poll opt hdb hend hv ho]
          by_cases hk : k = id
          · right
            subst hk
            exact ⟨rfl, poll, hdb, hend, (hasAlreadyVoted_false_iff _ _).mp hv,
              (optionsId_isSome_iff _ _).mp ⟨opt, ho⟩, save_same _ _ _⟩
          · left; exact save_other _ _ _ _ hk

/-- What `changeVote` does to the poll stored under `k`: nothing, or (when it
is the poll voted on and the option exists) the strip followed by the push. -/
theorem changeVote_store (db : Collection Poll) (id optionId userId : Nat) (now : Int) (k : Nat) :
    (changeVote db id optionId userId now).2 k = db k ∨
    (k = id ∧ ∃ poll, db k = some poll ∧ ¬ poll.endDate < now ∧
      (∃ opt ∈ poll.options, opt._id = optionId) ∧
      (changeVote db id optionId userId now).2 k =
        some { poll with options := pushVote (removeVotes poll.options userId) optionId userId }) := by
  cases hdb : db id with
  | none => left; rw [changeVote_notFound db id optionId userId now hdb]
  | some poll =>
    by_cases hend : poll.endDate < now
    · left; rw [changeVote_ended db id optionId userId now poll hdb hend]
    · cases ho : optionsId (removeVotes poll.options userId) optionId with
      | none => left; rw [changeVote_noOption db id optionId userId now poll hdb hend ho]
      | some opt =>
        rw [changeVote_ok db id optionId userId now poll opt hdb hend ho]
        by_cases hk : k = id
        · right
          subst hk
          have hsome : optionsId poll.options optionId ≠ none := by
            intro hn
            rw [← optionsId_removeVotes_none_iff _ _ userId, ho] at hn
            exact Option.noConfusion hn
          obtain ⟨opt0, hopt0⟩ := Option.ne_none_iff_exists'.mp hsome
          exact ⟨rfl, poll, hdb, hend, (optionsId_isSome_iff _ _).mp ⟨opt0, hopt0⟩,
            save_same _ _ _⟩
        · left; exact save_other _ _ _ _ hk

theorem stepPoll_oneVote (db : Collection Poll) (req : PollRequest) (k : Nat) (poll : Poll)
    (hdb : db k = some poll) (hinv : OneVote poll) :
    ∃ poll1, stepPoll db req k = some poll1 ∧ OneVote poll1 := by
  cases req with
  | vote id optionId userId now =>
    rcases vote_store db id optionId userId now k with h | ⟨_, p, hp, _, hnew, hopt, h⟩
    · exact ⟨poll, by simp [stepPoll, h, hdb], hinv⟩
    · rw [hdb] at hp
      cases hp
      exact ⟨_, h, oneVote_pushVote poll optionId userId hinv hnew hopt⟩
  | changeVote id optionId userId now =>
    rcases changeVote_store db id optionId userId now k with h | ⟨_, p, hp, _, hopt, h⟩
    · exact ⟨poll, by simp [stepPoll, h, hdb], hinv⟩
    · rw [hdb] at hp
      cases hp
      exact ⟨_, h, oneVote_changeVote poll optionId userId hinv hopt⟩

theorem runPoll_oneVote (reqs : List PollRequest) (db : Collection Poll) (k : Nat) (poll : Poll)
    (hdb : db k = some poll) (hinv : OneVote poll) :
    ∃ poll1, runPoll db reqs k = some poll1 ∧ OneVote poll1 := by
  induction reqs generalizing db poll with
  | nil => exact ⟨poll, hdb, hinv⟩
  | cons req rest ih =>
    obtain ⟨p1, h1, hinv1⟩ := stepPoll_oneVote db req k poll hdb hinv
    exact ih (stepPoll db req) p1 h1 hinv1

/-! ## The option that receives the vote -/

/-- Where `pushVote` writes: at the first position `i` whose option has the
given `_id`; every other position keeps its option. -/
theorem pushVote_getElem? (options : List PollOption) (optionId userId : Nat)
    (h : ∃ opt ∈ options, opt._id = optionId) :
    ∃ (i : Nat) (opt : PollOption), options[i]? = some opt ∧ opt._id = optionId ∧
      (pushVote options optionId userId)[i]? =
        some { opt with votes := opt.votes ++ [userId] } ∧
      ∀ j, j ≠ i → (pushVote options optionId userId)[j]? = options[j]? := by
  induction options with
  | nil => simp at h
  | cons o rest ih =>
    by_cases hid : o._id = optionId
    · refine ⟨0, o, by simp, hid, by simp [pushVote, hid], ?_⟩
      intro j hj
      cases j with
      | zero => exact absurd rfl hj
      | succ j => simp [pushVote, hid]
    · have h2 : ∃ opt ∈ rest, opt._id = optionId := by
        obtain ⟨opt, ho, hoid⟩ := h
        rcases List.mem_cons.mp ho with rfl | ho
        · exact absurd hoid hid
        · exact ⟨opt, ho, hoid⟩
      obtain ⟨i, opt, hi, hoid, hpush, hrest⟩ := ih h2
      refine ⟨i + 1, opt, by simpa using hi, hoid, by simpa [pushVote, hid] using hpush, ?_⟩
      intro j hj
      cases j with
      | zero => simp [pushVote, hid]
      | succ j =>
        have := hrest j (by omega)
        simpa [pushVote, hid] using this

theorem removeVotes_getElem? (options : List PollOption) (userId j : Nat) :
    (removeVotes options userId)[j]? =
      (options[j]?).map (fun opt => { opt with votes := opt.votes.filter (fun v => v != userId) }) := by
  simp [removeVotes]

/-- With pairwise distinct option ids, an id singles out one position. -/
theorem index_unique_of_nodup (options : List PollOption)
    (hids : (options.map (fun opt => opt._id)).Nodup) (i j : Nat) (a b : PollOption)
    (ha : options[i]? = some a) (hb : options[j]? = some b) (hab : a._id = b._id) : i = j := by
  obtain ⟨hi, rfl⟩ := List.getElem?_eq_some_iff.mp ha
  obtain ⟨hj, rfl⟩ := List.getElem?_eq_some_iff.mp hb
  have hi2 : i < (options.map (fun opt => opt._id)).length := by simpa using hi
  have hj2 : j < (options.map (fun opt => opt._id)).length := by simpa using hj
  have : (options.map (fun opt => opt._id))[i] = (options.map (fun opt => opt._id))[j] := by
    simpa using hab
  exact (hids.getElem_inj_iff).mp this

theorem removeVotes_of_not_voted (options : List PollOption) (userId : Nat)
    (h : ∀ opt ∈ options, userId ∉ opt.votes) : removeVotes options userId = options := by
  induction options with
  | nil => rfl
  | cons o rest ih =>
    have h1 : o.votes.filter (fun v => v != userId) = o.votes := by
      rw [List.filter_eq_self]
      intro v hv
      have : v ≠ userId := fun hvu => h o (List.mem_cons_self _ _) (hvu ▸ hv)
      simpa using this
    have h2 := ih (fun opt ho => h opt (List.mem_cons_of_mem _ ho))
    simp only [removeVotes, List.map_cons] at h2 ⊢
    rw [h2, h1]

theorem oneVote_spec (poll : Poll) (hinv : OneVote poll) :
    (∀ (u i j : Nat) (a b : PollOption), poll.options[i]? = some a → poll.options[j]? = some b →
        u ∈ a.votes → u ∈ b.votes → i = j) ∧
    (∀ u, ∀ opt ∈ poll.options, opt.votes.count u ≤ 1) := by
  unfold OneVote allVotes votesOf at hinv
  rw [List.nodup_flatten] at hinv
  obtain ⟨hnd, hpw⟩ := hinv
  constructor
  · intro u i j a b ha hb hua hub
    rw [List.pairwise_iff_getElem] at hpw
    obtain ⟨hi, rfl⟩ := List.getElem?_eq_some_iff.mp ha
    obtain ⟨hj, rfl⟩ := List.getElem?_eq_some_iff.mp hb
    by_contra hne
    rcases Nat.lt_or_gt_of_ne hne with hlt | hgt
    · have := hpw i j (by simpa using hi) (by simpa using hj) hlt
      simp only [List.getElem_map] at this
      exact this hua hub
    · have := hpw j i (by simpa using hj) (by simpa using hi) hgt
      simp only [List.getElem_map] at this
      exact this hub hua
  · intro u opt ho
    exact List.nodup_iff_count_le_one.mp (hnd _ (List.mem_map_of_mem _ ho)) u

theorem oneVote_of_no_votes (poll : Poll) (h : ∀ opt ∈ poll.options, opt.votes = []) :
    OneVote poll := by
  unfold OneVote allVotes
  have : votesOf poll.options = [] := by
    apply List.eq_nil_iff_forall_not_mem.mpr
    intro u hu
    obtain ⟨opt, ho, hu⟩ := mem_votesOf.mp hu
    rw [h opt ho] at hu
    exact List.not_mem_nil _ hu
  rw [this]
  exact List.nodup_nil

/-- The outcome of `vote`: when it answers 200, and what it answers otherwise. -/
theorem vote_outcome (db : Collection Poll) (id optionId userId : Nat) (now : Int) :
    ((vote db id optionId userId now).1.status = 200 ↔
      ∃ poll, db id = some poll ∧ now ≤ poll.endDate ∧
        (∀ opt ∈ poll.options, userId ∉ opt.votes) ∧
        (∃ opt ∈ poll.options, opt._id = optionId)) ∧
    ((vote db id optionId userId now).1.status ≠ 200 →
      ((vote db id optionId userId now).1.status = 400 ∨
        (vote db id optionId userId now).1.status = 404) ∧
      (vote db id optionId userId now).1.error ≠ none ∧
      (vote db id optionId userId now).1.doc = none ∧
      (vote db id optionId userId now).2 = db) := by
  cases hdb : db id with
  | none =>
    rw [vote_notFound db id optionId userId now hdb]
    simp [Response.fail]
  | some poll =>
    by_cases hend : poll.endDate < now
    · rw [vote_ended db id optionId userId now poll hdb hend]
      simp [Response.fail]
      intro _ _
      omega
    · cases hv : hasAlreadyVoted poll userId with
      | true =>
        rw [vote_already db id optionId userId now poll hdb hend hv]
        simp [Response.fail]
        intro _ hnew
        obtain ⟨opt, ho, hu⟩ := (hasAlreadyVoted_iff _ _).mp hv
        exact absurd hu (hnew opt ho)
      | false =>
        cases ho : optionsId poll.options optionId with
        | none =>
          rw [vote_noOption db id optionId userId now poll hdb hend hv ho]
          simp [Response.fail]
          intro _ _ opt hopt
          exact (optionsId_none_iff _ _).mp ho opt hopt
        | some opt =>
          rw [vote_ok db id optionId userId now poll opt hdb hend hv ho]
          simp [Response.json]
          exact ⟨by omega, (hasAlreadyVoted_false_iff _ _).mp hv,
            by simpa using (optionsId_isSome_iff _ _).mp ⟨opt, ho⟩⟩

/-! ## Claims on poll voting -/

/-- C1. One-vote invariant: when the poll stored under `id` has every user id
at most once across all its options' vote lists (or has only empty vote
lists, as a freshly created poll does), then after any finite sequence of
`vote` and `changeVote` requests, by any users on any polls and options, served
one after another, the poll is still stored and every user id occurs in at
most one option's vote list and at most once in that list. -/
theorem poll_one_vote_invariant (db : Collection Poll) (id : Nat) (poll : Poll)
    (reqs : List PollRequest) (hdb : db id = some poll)
    (hinv : OneVote poll ∨ ∀ opt ∈ poll.options, opt.votes = []) :
    ∃ poll1, runPoll db reqs id = some poll1 ∧ OneVote poll1 ∧
      (∀ (u i j : Nat) (a b : PollOption),
        poll1.options[i]? = some a → poll1.options[j]? = some b →
        u ∈ a.votes → u ∈ b.votes → i = j) ∧
      (∀ u, ∀ opt ∈ poll1.options, opt.votes.count u ≤ 1) := by
  have h0 : OneVote poll := hinv.elim (fun h => h) (oneVote_of_no_votes poll)
  obtain ⟨poll1, h1, hinv1⟩ := runPoll_oneVote reqs db id poll hdb h0
  exact ⟨poll1, h1, hinv1, oneVote_spec poll1 hinv1⟩

/-- Witness of C1 on the sample poll: a vote, a change of vote, a second vote
by a user who has one, and a vote on a poll that does not exist. -/
theorem poll_one_vote_invariant_witness :
    pollDb 1 = some pollA ∧ OneVote pollA ∧
    ∃ poll1,
      runPoll pollDb [.vote 1 11 9 500, .changeVote 1 10 9 600, .vote 1 10 7 700,
        .vote 2 10 7 700] 1 = some poll1 ∧ OneVote poll1 ∧
      (∀ (u i j : Nat) (a b : PollOption),
        poll1.options[i]? = some a → poll1.options[j]? = some b →
        u ∈ a.votes → u ∈ b.votes → i = j) ∧
      (∀ u, ∀ opt ∈ poll1.options, opt.votes.count u ≤ 1) :=
  ⟨rfl, by decide, poll_one_vote_invariant pollDb 1 pollA _ rfl (Or.inl (by decide))⟩

/-- C2. `vote` is accepted (answered 200 with the poll) if and only if the poll
exists, `now` is not after its `endDate`, the user occurs in no option's vote
list, and `optionId` is the `_id` of one of its options; in every other case it
is rejected: the answer is a 400 or a 404 carrying an error and no document,
and the collection is as before. -/
theorem vote_accepted_iff (db : Collection Poll) (id optionId userId : Nat) (now : Int) :
    ((vote db id optionId userId now).1.status = 200 ↔
      ∃ poll, db id = some poll ∧ now ≤ poll.endDate ∧
        (∀ opt ∈ poll.options, userId ∉ opt.votes) ∧
        (∃ opt ∈ poll.options, opt._id = optionId)) ∧
    ((vote db id optionId userId now).1.status ≠ 200 →
      ((vote db id optionId userId now).1.status = 400 ∨
        (vote db id optionId userId now).1.status = 404) ∧
      (vote db id optionId userId now).1.error ≠ none ∧
      (vote db id optionId userId now).1.doc = none ∧
      (vote db id optionId userId now).2 = db) :=
  vote_outcome db id optionId userId now

/-- Witness of C2 on the sample poll: user 9 has no vote and is accepted, user
7 has one and is rejected. -/
theorem vote_accepted_iff_witness :
    (vote pollDb 1 11 9 500).1.status = 200 ∧ (vote pollDb 1 11 7 500).1.status ≠ 200 ∧
    ((vote pollDb 1 11 7 500).1.status = 400 ∨ (vote pollDb 1 11 7 500).1.status = 404) ∧
    (vote pollDb 1 11 7 500).1.error ≠ none ∧ (vote pollDb 1 11 7 500).1.doc = none ∧
    (vote pollDb 1 11 7 500).2 = pollDb :=
  ⟨by decide, by decide, (vote_accepted_iff pollDb 1 11 7 500).2 (by decide)⟩

/-- C3 as stated fails: the answer to a second vote is of no error kind kept
apart from Validation. On the sample poll user 9 votes for option 11, then for
option 10: the second call is answered with status 400, the very status the
backend gives to a Validation failure, such as the booking status route's
answer to the malformed status value `done`. -/
theorem vote_twice_counterexample :
    (vote pollDb 1 11 9 500).1.status = 200 ∧
    (vote (vote pollDb 1 11 9 500).2 1 10 9 501).1 =
      Response.fail 400 "You have already voted in this poll" ∧
    (bookingsPatchStatus (bookingDb "pending") 1 "admin" (some "done")).1 =
      Response.fail 400 "Invalid status" ∧
    ¬ ((vote (vote pollDb 1 11 9 500).2 1 10 9 501).1.status ≠
      (bookingsPatchStatus (bookingDb "pending") 1 "admin" (some "done")).1.status) := by
  decide

/-- C3, amended. When a user's `vote` is accepted and the same user calls
`vote` again on that poll, whichever option the second call names (the same or
another one) and whenever it comes, the second call is rejected with status
400, which is also the status of a Validation failure (the booking status
route answers it to a missing or malformed status), and leaves the collection,
hence every option's vote list, exactly as the first call left it; while the
poll is still open the error is `You have already voted in this poll`. -/
theorem vote_twice_rejected (db : Collection Poll) (id optionId1 optionId2 userId : Nat)
    (now1 now2 : Int) (hfirst : (vote db id optionId1 userId now1).1.status = 200) :
    (vote (vote db id optionId1 userId now1).2 id optionId2 userId now2).1.status = 400 ∧
    (vote (vote db id optionId1 userId now1).2 id optionId2 userId now2).2 =
      (vote db id optionId1 userId now1).2 ∧
    (∃ poll1, (vote db id optionId1 userId now1).2 id = some poll1 ∧
      (now2 ≤ poll1.endDate →
        (vote (vote db id optionId1 userId now1).2 id optionId2 userId now2).1 =
          Response.fail 400 "You have already voted in this poll")) ∧
    (∀ (bookings : Collection Booking) (bookingId : Nat) (status : Option String),
      validBookingStatus status = false →
      (bookingsPatchStatus bookings bookingId "admin" status).1 =
        Response.fail 400 "Invalid status") := by
  obtain ⟨poll, hdb, hlive, hnew, hopt⟩ := (vote_outcome db id optionId1 userId now1).1.mp hfirst
  have hend : ¬ poll.endDate < now1 := by omega
  have hv : hasAlreadyVoted poll userId = false := (hasAlreadyVoted_false_iff _ _).mpr hnew
  obtain ⟨opt, ho⟩ := (optionsId_isSome_iff _ _).mpr hopt
  rw [vote_ok db id optionId1 userId now1 poll opt hdb hend hv ho]
  have hdb1 : save db id { poll with options := pushVote poll.options optionId1 userId } id =
      some { poll with options := pushVote poll.options optionId1 userId } := save_same _ _ _
  have hv1 : hasAlreadyVoted { poll with options := pushVote poll.options optionId1 userId }
      userId = true := by
    rw [hasAlreadyVoted_iff]
    have hmem : userId ∈ votesOf (pushVote poll.options optionId1 userId) :=
      (votesOf_pushVote_perm poll.options optionId1 userId hopt).mem_iff.mpr
        (List.mem_cons_self _ _)
    exact mem_votesOf.mp hmem
  have hval : ∀ (bookings : Collection Booking) (bookingId : Nat) (status : Option String),
      validBookingStatus status = false →
      (bookingsPatchStatus bookings bookingId "admin" status).1 =
        Response.fail 400 "Invalid status" := by
    intro bookings bookingId status hbad
    simp [bookingsPatchStatus, hbad]
  by_cases hend2 : poll.endDate < now2
  · rw [vote_ended _ id optionId2 userId now2 _ hdb1 hend2]
    refine ⟨rfl, rfl, ⟨_, hdb1, ?_⟩, hval⟩
    intro hlive2
    exact absurd hend2 (by simpa using hlive2)
  · rw [vote_already _ id optionId2 userId now2 _ hdb1 hend2 hv1]
    exact ⟨rfl, rfl, ⟨_, hdb1, fun _ => rfl⟩, hval⟩

/-- Witness of C3, amended, on the sample poll: user 9 votes for option 11,
then for option 10. -/
theorem vote_twice_rejected_witness :
    (vote pollDb 1 11 9 500).1.status = 200 ∧
    (vote (vote pollDb 1 11 9 500).2 1 10 9 501).1.status = 400 ∧
    (vote (vote pollDb 1 11 9 500).2 1 10 9 501).2 = (vote pollDb 1 11 9 500).2 ∧
    ∃ poll1, (vote pollDb 1 11 9 500).2 1 = some poll1 ∧
      (501 ≤ poll1.endDate →
        (vote (vote pollDb 1 11 9 500).2 1 10 9 501).1 =
          Response.fail 400 "You have already voted in this poll") :=
  ⟨by decide, (vote_twice_rejected pollDb 1 11 10 9 500 501 (by decide)).1,
    (vote_twice_rejected pollDb 1 11 10 9 500 501 (by decide)).2.1,
    (vote_twice_rejected pollDb 1 11 10 9 500 501 (by decide)).2.2.1⟩

/-- C4. After an accepted `vote` the stored poll differs from the poll before
in one option only, the target (the option at some position `i` whose `_id` is
`optionId`): its vote list is the previous list with `userId` appended at the
end, its `_id` and text are kept; the option at every other position is the one
that was there, so the options' order, texts and vote lists are unchanged; and
the question, `endDate`, notice and creation date are unchanged. -/
theorem vote_accepted_effect (db : Collection Poll) (id optionId userId : Nat) (now : Int)
    (hacc : (vote db id optionId userId now).1.status = 200) :
    ∃ (poll poll1 : Poll) (i : Nat) (opt : PollOption),
      db id = some poll ∧ (vote db id optionId userId now).2 id = some poll1 ∧
      (vote db id optionId userId now).1.doc = some poll1 ∧
      poll.options[i]? = some opt ∧ opt._id = optionId ∧
      poll1.options[i]? = some { opt with votes := opt.votes ++ [userId] } ∧
      (∀ j, j ≠ i → poll1.options[j]? = poll.options[j]?) ∧
      poll1.question = poll.question ∧ poll1.endDate = poll.endDate ∧
      poll1.notice = poll.notice ∧ poll1.createdAt = poll.createdAt := by
  obtain ⟨poll, hdb, hlive, hnew, hopt⟩ := (vote_outcome db id optionId userId now).1.mp hacc
  have hend : ¬ poll.endDate < now := by omega
  have hv : hasAlreadyVoted poll userId = false := (hasAlreadyVoted_false_iff _ _).mpr hnew
  obtain ⟨opt0, ho⟩ := (optionsId_isSome_iff _ _).mpr hopt
  obtain ⟨i, opt, hi, hid, hpush, hrest⟩ := pushVote_getElem? poll.options optionId userId hopt
  rw [vote_ok db id optionId userId now poll opt0 hdb hend hv ho]
  exact ⟨poll, _, i, opt, hdb, save_same _ _ _, rfl, hi, hid, hpush, hrest, rfl, rfl, rfl, rfl⟩

/-- Witness of C4 on the sample poll: user 9 votes for option 11. -/
theorem vote_accepted_effect_witness :
    (vote pollDb 1 11 9 500).1.status = 200 ∧
    ∃ (poll poll1 : Poll) (i : Nat) (opt : PollOption),
      pollDb 1 = some poll ∧ (vote pollDb 1 11 9 500).2 1 = some poll1 ∧
      (vote pollDb 1 11 9 500).1.doc = some poll1 ∧
      poll.options[i]? = some opt ∧ opt._id = 11 ∧
      poll1.options[i]? = some { opt with votes := opt.votes ++ [9] } ∧
      (∀ j, j ≠ i → poll1.options[j]? = poll.options[j]?) ∧
      poll1.question = poll.question ∧ poll1.endDate = poll.endDate ∧
      poll1.notice = poll.notice ∧ poll1.createdAt = poll.createdAt :=
  ⟨by decide, vote_accepted_effect pollDb 1 11 9 500 (by decide)⟩

/-- C5. On an open poll whose option ids are pairwise distinct, `changeVote`
to any option B of the poll (the one at position `i`) is accepted, whether the
user had voted for another option, for B itself, or not at all; afterwards B's
vote list is its former list without the user followed by the user, so it holds
the user exactly once; the option at every other position is the former one
with the user removed from its votes, so it holds the user nowhere; and the
votes of every other user are, in every option, what they were. When the user
had no vote, `changeVote` answers and stores exactly what `vote` does. -/
theorem changeVote_moves_vote (db : Collection Poll) (id userId : Nat) (now : Int)
    (poll : Poll) (i : Nat) (optB : PollOption)
    (hdb : db id = some poll) (hlive : now ≤ poll.endDate)
    (hids : (poll.options.map (fun opt => opt._id)).Nodup)
    (hB : poll.options[i]? = some optB) :
    (changeVote db id optB._id userId now).1.status = 200 ∧
    (∃ poll1 optB1, (changeVote db id optB._id userId now).2 id = some poll1 ∧
      poll1.options[i]? = some optB1 ∧
      optB1.votes = optB.votes.filter (fun v => v != userId) ++ [userId] ∧
      optB1.votes.count userId = 1 ∧
      (∀ j : Nat, j ≠ i → poll1.options[j]? = (poll.options[j]?).map
        (fun (opt : PollOption) => { opt with votes := opt.votes.filter (fun v => v != userId) })) ∧
      (∀ (j : Nat) (opt1 : PollOption), j ≠ i → poll1.options[j]? = some opt1 →
        userId ∉ opt1.votes) ∧
      (∀ j : Nat,
        (poll1.options[j]?).map (fun (opt : PollOption) => opt.votes.filter (fun v => v != userId)) =
        (poll.options[j]?).map (fun (opt : PollOption) => opt.votes.filter (fun v => v != userId)))) ∧
    ((∀ opt ∈ poll.options, userId ∉ opt.votes) →
      changeVote db id optB._id userId now = vote db id optB._id userId now) := by
  have hend : ¬ poll.endDate < now := by omega
  have hmem : optB ∈ poll.options := List.getElem?_mem hB
  have hopt : ∃ opt ∈ removeVotes poll.options userId, opt._id = optB._id :=
    ⟨_, List.mem_map_of_mem _ hmem, rfl⟩
  obtain ⟨opt0, ho⟩ := (optionsId_isSome_iff _ _).mpr hopt
  obtain ⟨k, opt, hk, hid, hpush, hrest⟩ :=
    pushVote_getElem? (removeVotes poll.options userId) optB._id userId hopt
  rw [removeVotes_getElem?] at hk
  obtain ⟨optk, hoptk, hstrip⟩ := Option.map_eq_some'.mp hk
  have hki : k = i := by
    apply index_unique_of_nodup poll.options hids k i optk optB hoptk hB
    rw [← hid, ← hstrip]
  subst hki
  rw [hB] at hoptk
  cases hoptk
  subst hstrip
  have hcount : (optB.votes.filter (fun v => v != userId) ++ [userId]).count userId = 1 := by
    rw [List.count_append]
    have : (optB.votes.filter (fun v => v != userId)).count userId = 0 := by
      rw [List.count_eq_zero]
      simp [List.mem_filter]
    rw [this]
    simp
  refine ⟨?_, ?_, ?_⟩
  · rw [changeVote_ok db id optB._id userId now poll opt0 hdb hend ho]
    rfl
  · rw [changeVote_ok db id optB._id userId now poll opt0 hdb hend ho]
    refine ⟨_, _, save_same _ _ _, hpush, rfl, hcount, ?_, ?_, ?_⟩
    · intro j hj
      show (pushVote (removeVotes poll.options userId) optB._id userId)[j]? = _
      rw [hrest j hj, removeVotes_getElem?]
    · intro j opt1 hj h1
      have h2 : (pushVote (removeVotes poll.options userId) optB._id userId)[j]? = some opt1 := h1
      rw [hrest j hj, removeVotes_getElem?] at h2
      obtain ⟨o, _, rfl⟩ := Option.map_eq_some'.mp h2
      simp [List.mem_filter]
    · intro j
      show ((pushVote (removeVotes poll.options userId) optB._id userId)[j]?).map _ = _
      by_cases hj : j = k
      · subst hj
        rw [hpush, hB]
        simp [List.filter_append, List.filter_filter]
      · rw [hrest j hj, removeVotes_getElem?]
        cases poll.options[j]? with
        | none => rfl
        | some o => simp [List.filter_filter]
  · intro hnew
    have hv : hasAlreadyVoted poll userId = false := (hasAlreadyVoted_false_iff _ _).mpr hnew
    have hsame := removeVotes_of_not_voted poll.options userId hnew
    rw [changeVote_ok db id optB._id userId now poll opt0 hdb hend ho]
    rw [hsame] at ho ⊢
    rw [vote_ok db id optB._id userId now poll opt0 hdb hend hv ho]

/-- Witness of C5 on the sample poll: user 7, who voted for option 10, changes
to option 11 (position 1). -/
theorem changeVote_moves_vote_witness :
    pollDb 1 = some pollA ∧ (500 : Int) ≤ pollA.endDate ∧
    (pollA.options.map (fun opt => opt._id)).Nodup ∧
    pollA.options[1]? = some { _id := 11, text := "no", votes := [8] } ∧
    (changeVote pollDb 1 11 7 500).2 1 = some { pollA with
      options := [{ _id := 10, text := "yes", votes := [] },
        { _id := 11, text := "no", votes := [8, 7] }] } ∧
    (changeVote pollDb 1 11 7 500).1.status = 200 :=
  ⟨rfl, by decide, by decide, rfl, by decide,
    (changeVote_moves_vote pollDb 1 7 500 pollA 1 { _id := 11, text := "no", votes := [8] }
      rfl (by decide) (by decide) rfl).1⟩

/-- C6. On an existing poll whose `endDate` is earlier than the current time,
`vote` and `changeVote` are both rejected with status 400 `Poll has ended`,
whatever the option id and whether or not the user has a vote, and the
collection, hence every vote list, is unchanged. -/
theorem ended_poll_rejected (db : Collection Poll) (id optionId userId : Nat) (now : Int)
    (poll : Poll) (hdb : db id = some poll) (hend : poll.endDate < now) :
    vote db id optionId userId now = (Response.fail 400 "Poll has ended", db) ∧
    changeVote db id optionId userId now = (Response.fail 400 "Poll has ended", db) :=
  ⟨vote_ended db id optionId userId now poll hdb hend,
    changeVote_ended db id optionId userId now poll hdb hend⟩

/-- Witness of C6 on the sample poll, one millisecond after its end, for a
user who has voted. -/
theorem ended_poll_rejected_witness :
    pollDb 1 = some pollA ∧ pollA.endDate < 1001 ∧
    vote pollDb 1 11 7 1001 = (Response.fail 400 "Poll has ended", pollDb) ∧
    changeVote pollDb 1 11 7 1001 = (Response.fail 400 "Poll has ended", pollDb) :=
  ⟨rfl, by decide, ended_poll_rejected pollDb 1 11 7 1001 pollA rfl (by decide)⟩

/-! ## Claims on bookings and maintenance records -/

theorem bookingsCancel_unresolved (users : Collection User) (db : Collection Booking)
    (id userId : Nat) (userRole : String) (booking : Booking) (hdb : db id = some booking)
    (hno : populateUser users booking.user = none) :
    bookingsCancel users db id userId userRole = (Response.fail 500 "Server error", db) := by
  simp [bookingsCancel, findById, hdb, hno]

/-- The answer of `bookingsCancel` on an existing booking whose owner
`populate` resolves, by cases on the requester and the status. -/
theorem bookingsCancel_cases (users : Collection User) (db : Collection Booking)
    (id userId : Nat) (userRole : String) (booking : Booking) (owner : Nat)
    (hdb : db id = some booking) (hown : populateUser users booking.user = some owner) :
    (owner ≠ userId ∧ userRole ≠ "admin" ∧
      bookingsCancel users db id userId userRole =
        (Response.fail 403 "Not authorized to cancel this booking", db)) ∨
    ((owner = userId ∨ userRole = "admin") ∧
      ¬ (booking.status = "pending" ∨ booking.status = "approved") ∧
      bookingsCancel users db id userId userRole =
        (Response.fail 400 ("Cannot cancel a " ++ booking.status ++ " booking"), db)) ∨
    ((owner = userId ∨ userRole = "admin") ∧
      (booking.status = "pending" ∨ booking.status = "approved") ∧
      bookingsCancel users db id userId userRole =
        (Response.json { booking with status := "cancelled" },
          save db id { booking with status := "cancelled" })) := by
  by_cases hauth : owner ≠ userId ∧ userRole ≠ "admin"
  · left
    exact ⟨hauth.1, hauth.2,
      by simp [bookingsCancel, findById, hdb, hown, hauth.1, hauth.2]⟩
  · have hauth2 : owner = userId ∨ userRole = "admin" := by
      by_contra hcon
      push_neg at hcon
      exact hauth hcon
    have hif : ¬ (¬ owner = userId ∧ ¬ userRole = "admin") := hauth
    by_cases hst : booking.status = "pending" ∨ booking.status = "approved"
    · right; right
      refine ⟨hauth2, hst, ?_⟩
      have hc : ["pending", "approved"].contains booking.status = true := by
        simpa using hst
      simp only [bookingsCancel, findById, hdb, hown, ne_eq, hif, if_false, hc,
        not_true_eq_false]
    · right; left
      refine ⟨hauth2, hst, ?_⟩
      have hc : ["pending", "approved"].contains booking.status = false := by
        simpa using hst
      simp only [bookingsCancel, findById, hdb, hown, ne_eq, hif, if_false, hc,
        Bool.false_eq_true, not_false_eq_true, if_true]

/-- What `bookingsCancel` stores: the collection as it was, or the booking
under `id` with status `cancelled` and every other field as it was. -/
theorem bookingsCancel_store (users : Collection User) (db : Collection Booking)
    (id userId : Nat) (userRole : String) :
    (bookingsCancel users db id userId userRole).2 = db ∨
    ∃ booking, db id = some booking ∧
      (booking.status = "pending" ∨ booking.status = "approved") ∧
      (bookingsCancel users db id userId userRole).2 =
        save db id { booking with status := "cancelled" } := by
  cases hfind : db id with
  | none => left; simp [bookingsCancel, findById, hfind]
  | some booking =>
    cases hown : populateUser users booking.user with
    | none => left; rw [bookingsCancel_unresolved users db id userId userRole booking hfind hown]
    | some owner =>
      rcases bookingsCancel_cases users db id userId userRole booking owner hfind hown with
        ⟨_, _, h⟩ | ⟨_, _, h⟩ | ⟨_, hok, h⟩
      · left; rw [h]
      · left; rw [h]
      · right; exact ⟨booking, rfl, hok, by rw [h]⟩

/-- The answer of `maintenanceCancel` on an existing record, by cases on the
requester and the status. -/
theorem maintenanceCancel_cases (db : Collection Maintenance) (id userId : Nat)
    (userRole : String) (request : Maintenance) (hdb : db id = some request) :
    (request.user ≠ userId ∧ userRole ≠ "admin" ∧
      maintenanceCancel db id userId userRole =
        (Response.fail 403 "Not authorized to cancel this request", db)) ∨
    ((request.user = userId ∨ userRole = "admin") ∧
      ¬ (request.status = "pending" ∨ request.status = "in_progress") ∧
      maintenanceCancel db id userId userRole =
        (Response.fail 400 ("Cannot cancel a " ++ request.status ++ " request"), db)) ∨
    ((request.user = userId ∨ userRole = "admin") ∧
      (request.status = "pending" ∨ request.status = "in_progress") ∧
      maintenanceCancel db id userId userRole =
        (Response.json { request with status := "cancelled" },
          save db id { request with status := "cancelled" })) := by
  by_cases hauth : request.user ≠ userId ∧ userRole ≠ "admin"
  · left
    exact ⟨hauth.1, hauth.2, by simp [maintenanceCancel, findById, hdb, hauth.1, hauth.2]⟩
  · have hauth2 : request.user = userId ∨ userRole = "admin" := by
      by_contra hcon
      push_neg at hcon
      exact hauth hcon
    have hif : ¬ (¬ request.user = userId ∧ ¬ userRole = "admin") := hauth
    by_cases hst : request.status = "pending" ∨ request.status = "in_progress"
    · right; right
      refine ⟨hauth2, hst, ?_⟩
      have hc : ["pending", "in_progress"].contains request.status = true := by
        simpa using hst
      simp only [maintenanceCancel, findById, hdb, ne_eq, hif, if_false, hc, not_true_eq_false]
    · right; left
      refine ⟨hauth2, hst, ?_⟩
      have hc : ["pending", "in_progress"].contains request.status = false := by
        simpa using hst
      simp only [maintenanceCancel, findById, hdb, ne_eq, hif, if_false, hc, Bool.false_eq_true,
        not_false_eq_true, if_true]

/-- The cancel of a booking whose owner `populate` resolves: it is accepted
(answered 200) if and only if the requester is that owner or has role `admin`,
and the booking's status is `pending` or `approved`. When accepted, the stored
booking is the former one with status `cancelled` and every other field as it
was, and no other booking is touched; when rejected, the collection is
unchanged and the answer carries an error and no document. -/
theorem bookingsCancel_resolved_owner (users : Collection User) (db : Collection Booking)
    (id userId : Nat) (userRole : String) (booking : Booking) (owner : Nat)
    (hdb : db id = some booking) (hown : populateUser users booking.user = some owner) :
    ((bookingsCancel users db id userId userRole).1.status = 200 ↔
      (owner = userId ∨ userRole = "admin") ∧
      (booking.status = "pending" ∨ booking.status = "approved")) ∧
    ((bookingsCancel users db id userId userRole).1.status = 200 →
      bookingsCancel users db id userId userRole =
        (Response.json { booking with status := "cancelled" },
          save db id { booking with status := "cancelled" })) ∧
    ((bookingsCancel users db id userId userRole).1.status ≠ 200 →
      (bookingsCancel users db id userId userRole).2 = db ∧
      (bookingsCancel users db id userId userRole).1.error ≠ none ∧
      (bookingsCancel users db id userId userRole).1.doc = none) := by
  rcases bookingsCancel_cases users db id userId userRole booking owner hdb hown with
    ⟨h1, h2, h⟩ | ⟨h1, h2, h⟩ | ⟨h1, h2, h⟩
  · rw [h]
    refine ⟨⟨fun hs => absurd hs (by simp [Response.fail]), ?_⟩,
      fun hs => absurd hs (by simp [Response.fail]), fun _ => ⟨rfl, by simp [Response.fail], rfl⟩⟩
    rintro ⟨hown | hadm, _⟩
    · exact absurd hown h1
    · exact absurd hadm h2
  · rw [h]
    exact ⟨⟨fun hs => absurd hs (by simp [Response.fail]), fun hc => absurd hc.2 h2⟩,
      fun hs => absurd hs (by simp [Response.fail]), fun _ => ⟨rfl, by simp [Response.fail], rfl⟩⟩
  · rw [h]
    exact ⟨⟨fun _ => ⟨h1, h2⟩, fun _ => rfl⟩, fun _ => rfl, fun hs => absurd rfl hs⟩

/-- C7 fails on a booking stored without an owner. User 7 posts the array
`[{ facility, date }]`: the create answers 200 and stores, under id 1, a
pending booking with no `user`. An admin then cancels booking 1: the answer is
500 `Server error`, not an acceptance, and the booking is still pending. -/
theorem booking_cancel_ownerless :
    (bookingsPost noDocuments 1 7 (.array [ownerlessBody]) 100).1.status = 200 ∧
    (bookingsPost noDocuments 1 7 (.array [ownerlessBody]) 100).2 1 =
      some { facility := "Clubhouse", user := none, date := 5000, from_ := none, to_ := none
             status := "pending", createdAt := 100 } ∧
    (bookingsCancel userDb (bookingsPost noDocuments 1 7 (.array [ownerlessBody]) 100).2 1 2
      "admin").1 = Response.fail 500 "Server error" ∧
    (bookingsCancel userDb (bookingsPost noDocuments 1 7 (.array [ownerlessBody]) 100).2 1 2
      "admin").2 1 =
      some { facility := "Clubhouse", user := none, date := 5000, from_ := none, to_ := none
             status := "pending", createdAt := 100 } := by
  decide

/-- C8. On an existing maintenance or complaint record, the cancel operation
is accepted (answered 200) if and only if the requester is the record's owner
or has role `admin`, and the record's status is `pending` or `in_progress`.
When accepted, the stored record is the former one with status `cancelled` and
every other field (`resolvedAt`, `adminComments`, `assignedTo` included) as it
was, and no other record is touched; when rejected, the collection is unchanged
and the answer carries an error and no document. -/
theorem maintenance_cancel_accepted_iff (db : Collection Maintenance) (id userId : Nat)
    (userRole : String) (request : Maintenance) (hdb : db id = some request) :
    ((maintenanceCancel db id userId userRole).1.status = 200 ↔
      (request.user = userId ∨ userRole = "admin") ∧
      (request.status = "pending" ∨ request.status = "in_progress")) ∧
    ((maintenanceCancel db id userId userRole).1.status = 200 →
      maintenanceCancel db id userId userRole =
        (Response.json { request with status := "cancelled" },
          save db id { request with status := "cancelled" })) ∧
    ((maintenanceCancel db id userId userRole).1.status ≠ 200 →
      (maintenanceCancel db id userId userRole).2 = db ∧
      (maintenanceCancel db id userId userRole).1.error ≠ none ∧
      (maintenanceCancel db id userId userRole).1.doc = none) := by
  rcases maintenanceCancel_cases db id userId userRole request hdb with
    ⟨h1, h2, h⟩ | ⟨h1, h2, h⟩ | ⟨h1, h2, h⟩
  · rw [h]
    refine ⟨⟨fun hs => absurd hs (by simp [Response.fail]), ?_⟩,
      fun hs => absurd hs (by simp [Response.fail]), fun _ => ⟨rfl, by simp [Response.fail], rfl⟩⟩
    rintro ⟨hown | hadm, _⟩
    · exact absurd hown h1
    · exact absurd hadm h2
  · rw [h]
    exact ⟨⟨fun hs => absurd hs (by simp [Response.fail]), fun hc => absurd hc.2 h2⟩,
      fun hs => absurd hs (by simp [Response.fail]), fun _ => ⟨rfl, by simp [Response.fail], rfl⟩⟩
  · rw [h]
    exact ⟨⟨fun _ => ⟨h1, h2⟩, fun _ => rfl⟩, fun _ => rfl, fun hs => absurd rfl hs⟩

/-- Witness of C8: an admin cancels an in-progress request of user 7; the
owner is refused on a resolved one. -/
theorem maintenance_cancel_accepted_iff_witness :
    requestDb "in_progress" 1 = some (requestOf "in_progress") ∧
    (maintenanceCancel (requestDb "in_progress") 1 2 "admin").1.status = 200 ∧
    (maintenanceCancel (requestDb "in_progress") 1 2 "admin").2 1 =
      some (requestOf "cancelled") ∧
    (maintenanceCancel (requestDb "resolved") 1 7 "resident").1.status = 400 ∧
    (maintenanceCancel (requestDb "resolved") 1 7 "resident").2 = requestDb "resolved" :=
  ⟨rfl, by decide, by decide, by decide,
    ((maintenance_cancel_accepted_iff (requestDb "resolved") 1 7 "resident"
      (requestOf "resolved") rfl).2.2 (by decide)).1⟩

/-- C9 as stated fails: the answer to cancelling a `rejected` booking is not
kept apart from the Validation status 400. The owner's cancel of the sample
rejected booking is answered with status 400, the very status the status route
gives an admin who sends the malformed status value `done`. -/
theorem booking_cancel_rejected_counterexample :
    bookingDb "rejected" 1 = some (bookingOf "rejected") ∧
    populateUser userDb (bookingOf "rejected").user = some 7 ∧
    (bookingsPatchStatus (bookingDb "rejected") 1 "admin" (some "done")).1 =
      Response.fail 400 "Invalid status" ∧
    (bookingsCancel userDb (bookingDb "rejected") 1 7 "resident").1.status = 400 ∧
    ¬ ((bookingsCancel userDb (bookingDb "rejected") 1 7 "resident").1.status ≠
      (bookingsPatchStatus (bookingDb "rejected") 1 "admin" (some "done")).1.status) := by
  decide

/-- C9, amended. Cancelling a booking whose status is `rejected` and whose
owner is on record, requested by that owner or an admin, is answered with
status 400 and the error `Cannot cancel a rejected booking`, and the collection
is unchanged; status 400 is also what the status route answers to a missing or
malformed status value (`Invalid status`), so the two are told apart by their
message only. Cancelling a `pending` booking by its owner is accepted and
stores the booking with status `cancelled`. -/
theorem booking_cancel_rejected_amended (users : Collection User) (db : Collection Booking)
    (id userId : Nat) (userRole : String) (booking : Booking) (owner : Nat)
    (hdb : db id = some booking) (hown : populateUser users booking.user = some owner) :
    (booking.status = "rejected" → (owner = userId ∨ userRole = "admin") →
      bookingsCancel users db id userId userRole =
        (Response.fail 400 "Cannot cancel a rejected booking", db)) ∧
    (∀ status, validBookingStatus status = false →
      bookingsPatchStatus db id "admin" status = (Response.fail 400 "Invalid status", db)) ∧
    (booking.status = "pending" → owner = userId →
      bookingsCancel users db id userId userRole =
        (Response.json { booking with status := "cancelled" },
          save db id { booking with status := "cancelled" })) := by
  refine ⟨?_, ?_, ?_⟩
  · intro hst hauth
    rcases bookingsCancel_cases users db id userId userRole booking owner hdb hown with
      ⟨h1, h2, _⟩ | ⟨_, _, h⟩ | ⟨_, h2, _⟩
    · rcases hauth with hown | hadm
      · exact absurd hown h1
      · exact absurd hadm h2
    · rw [h, hst]
      rfl
    · rw [hst] at h2
      exact absurd h2 (by decide)
  · intro status hbad
    simp [bookingsPatchStatus, hbad]
  · intro hst hself
    rcases bookingsCancel_cases users db id userId userRole booking owner hdb hown with
      ⟨h1, _, _⟩ | ⟨_, h2, _⟩ | ⟨_, _, h⟩
    · exact absurd hself h1
    · exact absurd (Or.inl hst) h2
    · exact h

/-- Witness of C9, amended: the owner cancels a rejected booking, then a
pending one. -/
theorem booking_cancel_rejected_amended_witness :
    bookingDb "rejected" 1 = some (bookingOf "rejected") ∧
    populateUser userDb (bookingOf "rejected").user = some 7 ∧
    bookingsCancel userDb (bookingDb "rejected") 1 7 "resident" =
      (Response.fail 400 "Cannot cancel a rejected booking", bookingDb "rejected") ∧
    bookingDb "pending" 1 = some (bookingOf "pending") ∧
    bookingsCancel userDb (bookingDb "pending") 1 7 "resident" =
      (Response.json (bookingOf "cancelled"),
        save (bookingDb "pending") 1 (bookingOf "cancelled")) :=
  ⟨rfl, rfl,
    (booking_cancel_rejected_amended userDb (bookingDb "rejected") 1 7 "resident"
      (bookingOf "rejected") 7 rfl rfl).1 rfl (Or.inl rfl),
    rfl,
    (booking_cancel_rejected_amended userDb (bookingDb "pending") 1 7 "resident"
      (bookingOf "pending") 7 rfl rfl).2.2 rfl rfl⟩

/-- C10. For a requester whose role is not `admin`, the status update of a
booking and the status update of a maintenance record are both answered 403,
whatever the id (of an existing record or not, owned by the requester or not)
and whatever the body, and the collection is unchanged. -/
theorem status_update_forbidden (bookings : Collection Booking)
    (requests : Collection Maintenance) (id1 id2 : Nat) (userRole : String)
    (status : Option String) (body : StatusBody) (now : Int) (hrole : userRole ≠ "admin") :
    bookingsPatchStatus bookings id1 userRole status = (Response.fail 403 "Forbidden", bookings) ∧
    maintenancePatchStatus requests id2 userRole body now =
      (Response.fail 403 "Only administrators can update request status", requests) := by
  constructor
  · simp [bookingsPatchStatus, hrole]
  · simp [maintenancePatchStatus, hrole]

/-- Witness of C10: the owner of the sample records, a resident, asks for
`approved` and for `resolved`. -/
theorem status_update_forbidden_witness :
    "resident" ≠ "admin" ∧
    bookingsPatchStatus (bookingDb "pending") 1 "resident" (some "approved") =
      (Response.fail 403 "Forbidden", bookingDb "pending") ∧
    maintenancePatchStatus (requestDb "pending") 1 "resident"
        { status := some "resolved", adminComments := none, assignedTo := none } 900 =
      (Response.fail 403 "Only administrators can update request status", requestDb "pending") :=
  ⟨by decide, status_update_forbidden (bookingDb "pending") (requestDb "pending") 1 1 "resident"
    (some "approved") { status := some "resolved", adminComments := none, assignedTo := none }
    900 (by decide)⟩

/-! ## Lemmas on the booking handlers -/

theorem validBookingStatus_iff (s : String) :
    validBookingStatus (some s) = true ↔
      s = "pending" ∨ s = "approved" ∨ s = "rejected" ∨ s = "cancelled" := by
  simp [validBookingStatus]

theorem bookingsPatchStatus_nonAdmin (db : Collection Booking) (id : Nat) (userRole : String)
    (status : Option String) (hrole : userRole ≠ "admin") :
    bookingsPatchStatus db id userRole status = (Response.fail 403 "Forbidden", db) := by
  simp [bookingsPatchStatus, hrole]

theorem bookingsPatchStatus_invalid (db : Collection Booking) (id : Nat)
    (status : Option String) (hbad : validBookingStatus status = false) :
    bookingsPatchStatus db id "admin" status = (Response.fail 400 "Invalid status", db) := by
  simp [bookingsPatchStatus, hbad]

theorem bookingsPatchStatus_missing (db : Collection Booking) (id : Nat)
    (status : Option String) (hok : validBookingStatus status = true) (hdb : db id = none) :
    bookingsPatchStatus db id "admin" status = (Response.fail 404 "Not found", db) := by
  simp [bookingsPatchStatus, hok, findByIdAndUpdate, hdb]

theorem bookingsPatchStatus_valid (db : Collection Booking) (id : Nat) (booking : Booking)
    (s : String) (hdb : db id = some booking) (hok : validBookingStatus (some s) = true) :
    bookingsPatchStatus db id "admin" (some s) =
      (Response.json { booking with status := s }, save db id { booking with status := s }) := by
  simp [bookingsPatchStatus, hok, findByIdAndUpdate, hdb]

theorem bookingStatusesValid_save (db : Collection Booking) (id : Nat) (booking : Booking)
    (hdb : BookingStatusesValid db) (hb : validBookingStatus (some booking.status) = true) :
    BookingStatusesValid (save db id booking) := by
  intro k b hk
  unfold save at hk
  by_cases hkid : k = id
  · simp [hkid] at hk
    rw [← hk]
    exact hb
  · simp [hkid] at hk
    exact hdb k b hk

theorem bookingStatusesValid_deleteOne (db : Collection Booking) (id : Nat)
    (hdb : BookingStatusesValid db) : BookingStatusesValid (deleteOne db id) := by
  intro k b hk
  unfold deleteOne at hk
  by_cases hkid : k = id
  · simp [hkid] at hk
  · simp [hkid] at hk
    exact hdb k b hk

theorem booking_create_status (data : BookingBody) (now : Int) (booking : Booking)
    (h : Booking.create data now = some booking) :
    validBookingStatus (some booking.status) = true ∧ booking.user = data.user := by
  unfold Booking.create at h
  split at h
  · split at h
    · rename_i hcond
      cases h
      refine ⟨?_, rfl⟩
      have henum := hcond.2
      cases hst : data.status with
      | none => simp [validBookingStatus]
      | some s =>
        rw [hst] at henum
        simpa [validBookingStatus, enumValid] using henum
    · exact Option.noConfusion h
  · exact Option.noConfusion h

theorem createMany_valid (now : Int) (elements : List BookingBody) :
    ∀ (db : Collection Booking) (newId : Nat), BookingStatusesValid db →
      BookingStatusesValid (Booking.createMany db newId now elements).1 := by
  induction elements with
  | nil => intro db newId hdb; exact hdb
  | cons data rest ih =>
    intro db newId hdb
    cases hc : Booking.create data now with
    | none =>
      simp only [Booking.createMany, hc]
      exact ih db (newId + 1) hdb
    | some booking =>
      simp only [Booking.createMany, hc]
      exact ih _ (newId + 1)
        (bookingStatusesValid_save db newId booking hdb (booking_create_status _ _ _ hc).1)

theorem bookingsPost_valid (db : Collection Booking) (newId userId : Nat)
    (body : BookingPostBody) (now : Int) (hdb : BookingStatusesValid db) :
    BookingStatusesValid (bookingsPost db newId userId body now).2 := by
  cases body with
  | object data =>
    cases hc : Booking.create { data with user := some userId } now with
    | none => simpa only [bookingsPost, hc] using hdb
    | some booking =>
      simpa only [bookingsPost, hc] using
        bookingStatusesValid_save db newId booking hdb (booking_create_status _ _ _ hc).1
  | array elements =>
    have h := createMany_valid now elements db newId hdb
    cases hall : (Booking.createMany db newId now elements).2.2 with
    | true => simpa only [bookingsPost, hall, if_true] using h
    | false => simpa only [bookingsPost, hall, Bool.false_eq_true, if_false] using h

theorem stepBooking_valid (users : Collection User) (db : Collection Booking)
    (req : BookingRequest) (hdb : BookingStatusesValid db) :
    BookingStatusesValid (stepBooking users db req) := by
  cases req with
  | post newId userId body now =>
    simp only [stepBooking]
    exact bookingsPost_valid db newId userId body now hdb
  | patchStatus id userRole status =>
    simp only [stepBooking]
    by_cases hrole : userRole = "admin"
    · subst hrole
      cases hv : validBookingStatus status with
      | false => rw [bookingsPatchStatus_invalid db id status hv]; exact hdb
      | true =>
        cases hfind : db id with
        | none => rw [bookingsPatchStatus_missing db id status hv hfind]; exact hdb
        | some booking =>
          cases status with
          | none => simp [validBookingStatus] at hv
          | some s =>
            rw [bookingsPatchStatus_valid db id booking s hfind hv]
            exact bookingStatusesValid_save db id _ hdb hv
    · rw [bookingsPatchStatus_nonAdmin db id userRole status hrole]; exact hdb
  | delete id userRole =>
    simp only [stepBooking, bookingsDelete]
    by_cases hrole : userRole = "admin"
    · cases hfind : findById db id with
      | none => simpa [hrole, hfind] using hdb
      | some booking => simpa [hrole, hfind] using bookingStatusesValid_deleteOne db id hdb
    · simpa [hrole] using hdb
  | cancel id userId userRole =>
    simp only [stepBooking]
    rcases bookingsCancel_store users db id userId userRole with h | ⟨booking, _, _, h⟩
    · rw [h]; exact hdb
    · rw [h]
      exact bookingStatusesValid_save db id _ hdb (by simp [validBookingStatus])

theorem runBookings_valid (users : Collection User) (reqs : List BookingRequest)
    (db : Collection Booking) (hdb : BookingStatusesValid db) :
    BookingStatusesValid (runBookings users db reqs) := by
  induction reqs generalizing db with
  | nil => exact hdb
  | cons req rest ih =>
    exact ih (stepBooking users db req) (stepBooking_valid users db req hdb)

/-! ## Lemmas on the maintenance handlers -/

theorem maintenancePatchStatus_nonAdmin (db : Collection Maintenance) (id : Nat)
    (userRole : String) (body : StatusBody) (now : Int) (hrole : userRole ≠ "admin") :
    maintenancePatchStatus db id userRole body now =
      (Response.fail 403 "Only administrators can update request status", db) := by
  simp [maintenancePatchStatus, hrole]

theorem maintenancePatchStatus_admin (db : Collection Maintenance) (id : Nat)
    (request : Maintenance) (body : StatusBody) (now : Int) (hdb : db id = some request) :
    maintenancePatchStatus db id "admin" body now =
      (Response.json (updateData body now request), save db id (updateData body now request)) := by
  simp [maintenancePatchStatus, findByIdAndUpdate, hdb]

theorem maintenancePatchStatus_missing (db : Collection Maintenance) (id : Nat)
    (userRole : String) (body : StatusBody) (now : Int) (hdb : db id = none) :
    (maintenancePatchStatus db id userRole body now).2 = db := by
  by_cases hrole : userRole = "admin"
  · simp [maintenancePatchStatus, hrole, findByIdAndUpdate, hdb]
  · rw [maintenancePatchStatus_nonAdmin db id userRole body now hrole]

/-! ## Terminal statuses under cancels and non-admin status updates -/

theorem stepBooking_terminal (users : Collection User) (db : Collection Booking)
    (req : BookingRequest) (id : Nat) (booking : Booking) (hdb : db id = some booking)
    (hst : booking.status = "cancelled" ∨ booking.status = "rejected")
    (hreq : req.cancelOrNonAdminUpdate = true) :
    stepBooking users db req id = some booking := by
  cases req with
  | post newId userId body now => simp [BookingRequest.cancelOrNonAdminUpdate] at hreq
  | delete k userRole => simp [BookingRequest.cancelOrNonAdminUpdate] at hreq
  | patchStatus k userRole status =>
    have hrole : userRole ≠ "admin" := by
      simpa [BookingRequest.cancelOrNonAdminUpdate] using hreq
    simp only [stepBooking]
    rw [bookingsPatchStatus_nonAdmin db k userRole status hrole]
    exact hdb
  | cancel k userId userRole =>
    simp only [stepBooking]
    rcases bookingsCancel_store users db k userId userRole with h | ⟨other, hfind, hok, h⟩
    · rw [h]; exact hdb
    · rw [h]
      by_cases hk : id = k
      · subst hk
        rw [hdb] at hfind
        cases hfind
        rcases hst with hst | hst <;> rcases hok with hok | hok <;>
          · rw [hst] at hok
            exact absurd hok (by decide)
      · exact (save_other _ _ _ _ hk).trans hdb

theorem runBookings_terminal (users : Collection User) (reqs : List BookingRequest)
    (db : Collection Booking) (id : Nat)
    (booking : Booking) (hdb : db id = some booking)
    (hst : booking.status = "cancelled" ∨ booking.status = "rejected")
    (hreqs : ∀ req ∈ reqs, req.cancelOrNonAdminUpdate = true) :
    runBookings users db reqs id = some booking := by
  induction reqs generalizing db with
  | nil => exact hdb
  | cons req rest ih =>
    exact ih (stepBooking users db req)
      (stepBooking_terminal users db req id booking hdb hst (hreqs req (List.mem_cons_self _ _)))
      (fun r hr => hreqs r (List.mem_cons_of_mem _ hr))

theorem stepMaintenance_terminal (db : Collection Maintenance) (req : MaintenanceRequest)
    (id : Nat) (request : Maintenance) (hdb : db id = some request)
    (hst : request.status = "resolved" ∨ request.status = "cancelled")
    (hreq : req.cancelOrNonAdminUpdate = true) : stepMaintenance db req id = some request := by
  cases req with
  | post newId userId body now => simp [MaintenanceRequest.cancelOrNonAdminUpdate] at hreq
  | patchStatus k userRole body now =>
    have hrole : userRole ≠ "admin" := by
      simpa [MaintenanceRequest.cancelOrNonAdminUpdate] using hreq
    simp only [stepMaintenance]
    rw [maintenancePatchStatus_nonAdmin db k userRole body now hrole]
    exact hdb
  | cancel k userId userRole =>
    simp only [stepMaintenance]
    cases hfind : db k with
    | none => simpa [maintenanceCancel, findById, hfind] using hdb
    | some other =>
      rcases maintenanceCancel_cases db k userId userRole other hfind with
        ⟨_, _, h⟩ | ⟨_, _, h⟩ | ⟨_, hok, h⟩
      · rw [h]; exact hdb
      · rw [h]; exact hdb
      · rw [h]
        by_cases hk : id = k
        · subst hk
          rw [hdb] at hfind
          cases hfind
          rcases hst with hst | hst <;> rcases hok with hok | hok <;>
            · rw [hst] at hok
              exact absurd hok (by decide)
        · exact (save_other _ _ _ _ hk).trans hdb

theorem runMaintenance_terminal (reqs : List MaintenanceRequest) (db : Collection Maintenance)
    (id : Nat) (request : Maintenance) (hdb : db id = some request)
    (hst : request.status = "resolved" ∨ request.status = "cancelled")
    (hreqs : ∀ req ∈ reqs, req.cancelOrNonAdminUpdate = true) :
    runMaintenance db reqs id = some request := by
  induction reqs generalizing db with
  | nil => exact hdb
  | cons req rest ih =>
    exact ih (stepMaintenance db req)
      (stepMaintenance_terminal db req id request hdb hst (hreqs req (List.mem_cons_self _ _)))
      (fun r hr => hreqs r (List.mem_cons_of_mem _ hr))

/-! ## Claims on the status transitions -/

/-- C11 as stated fails: an admin status update to `approved` is accepted on a
booking whose current status is `cancelled`, not `pending`, and the stored
booking becomes `approved`. -/
theorem booking_admin_overwrite_counterexample :
    bookingDb "cancelled" 1 = some (bookingOf "cancelled") ∧
    (bookingOf "cancelled").status ≠ "pending" ∧
    (bookingsPatchStatus (bookingDb "cancelled") 1 "admin" (some "approved")).1.status = 200 ∧
    (bookingsPatchStatus (bookingDb "cancelled") 1 "admin" (some "approved")).2 1 =
      some (bookingOf "approved") := by
  decide

/-- C11, amended. An admin status update that sets a booking's status to
`approved` or to `rejected` is accepted whatever the booking's current status
(pending, approved, rejected, cancelled or anything else): the handler never
reads the current status, and stores the booking with the requested status and
every other field as it was. -/
theorem booking_admin_overwrite_amended (db : Collection Booking) (id : Nat) (booking : Booking)
    (s : String) (hdb : db id = some booking) (hs : s = "approved" ∨ s = "rejected") :
    bookingsPatchStatus db id "admin" (some s) =
      (Response.json { booking with status := s }, save db id { booking with status := s }) := by
  apply bookingsPatchStatus_valid db id booking s hdb
  rw [validBookingStatus_iff]
  rcases hs with hs | hs
  · exact Or.inr (Or.inl hs)
  · exact Or.inr (Or.inr (Or.inl hs))

/-- Witness of C11, amended: an admin rejects an approved booking. -/
theorem booking_admin_overwrite_amended_witness :
    bookingDb "approved" 1 = some (bookingOf "approved") ∧
    bookingsPatchStatus (bookingDb "approved") 1 "admin" (some "rejected") =
      (Response.json (bookingOf "rejected"), save (bookingDb "approved") 1 (bookingOf "rejected")) :=
  ⟨rfl, booking_admin_overwrite_amended (bookingDb "approved") 1 (bookingOf "approved") "rejected"
    rfl (Or.inr rfl)⟩

/-- C12. On an existing booking, whatever its current status, an admin status
update with requested status `s`: when `s` is one of `pending`, `approved`,
`rejected`, `cancelled`, the answer is 200 with the booking and the stored
booking is the former one with status `s`, every other field as it was; when
the requested status is any other value or absent, the answer is 400
`Invalid status` and the collection is unchanged. Consequently the status of
every stored booking is always one of the four values: this holds of all
bookings after any sequence of create, status-update, delete and cancel
requests served from a collection where it holds, the empty one included. -/
theorem booking_status_update_effect (db : Collection Booking) (id : Nat) (booking : Booking)
    (hdb : db id = some booking) :
    (∀ s, (s = "pending" ∨ s = "approved" ∨ s = "rejected" ∨ s = "cancelled") →
      bookingsPatchStatus db id "admin" (some s) =
        (Response.json { booking with status := s }, save db id { booking with status := s })) ∧
    (∀ status, (status = none ∨ ∃ s, status = some s ∧
        ¬ (s = "pending" ∨ s = "approved" ∨ s = "rejected" ∨ s = "cancelled")) →
      bookingsPatchStatus db id "admin" status = (Response.fail 400 "Invalid status", db)) ∧
    (∀ (users : Collection User) (db0 : Collection Booking) (reqs : List BookingRequest),
      BookingStatusesValid db0 → ∀ k b, runBookings users db0 reqs k = some b →
        b.status = "pending" ∨ b.status = "approved" ∨ b.status = "rejected" ∨
          b.status = "cancelled") ∧
    BookingStatusesValid noDocuments := by
  refine ⟨?_, ?_, ?_, ?_⟩
  · intro s hs
    exact bookingsPatchStatus_valid db id booking s hdb ((validBookingStatus_iff s).mpr hs)
  · intro status hbad
    apply bookingsPatchStatus_invalid
    rcases hbad with rfl | ⟨s, rfl, hs⟩
    · rfl
    · rw [← Bool.not_eq_true, validBookingStatus_iff]
      exact hs
  · intro users db0 reqs h0 k b hk
    exact (validBookingStatus_iff _).mp (runBookings_valid users reqs db0 h0 k b hk)
  · intro k b hk
    exact Option.noConfusion hk

/-- Witness of C12: an admin sets the sample cancelled booking back to
pending; the value `done` is refused. -/
theorem booking_status_update_effect_witness :
    bookingDb "cancelled" 1 = some (bookingOf "cancelled") ∧
    bookingsPatchStatus (bookingDb "cancelled") 1 "admin" (some "pending") =
      (Response.json (bookingOf "pending"), save (bookingDb "cancelled") 1 (bookingOf "pending")) ∧
    bookingsPatchStatus (bookingDb "cancelled") 1 "admin" (some "done") =
      (Response.fail 400 "Invalid status", bookingDb "cancelled") :=
  ⟨rfl,
    (booking_status_update_effect (bookingDb "cancelled") 1 (bookingOf "cancelled") rfl).1
      "pending" (Or.inl rfl),
    (booking_status_update_effect (bookingDb "cancelled") 1 (bookingOf "cancelled") rfl).2.1
      (some "done") (Or.inr ⟨"done", rfl, by decide⟩)⟩

/-- C13 as stated fails: a booking whose status is `cancelled` becomes
`approved`, and a maintenance record whose status is `resolved` becomes
`pending`, through one admin status update each. -/
theorem terminal_status_counterexample :
    bookingDb "cancelled" 1 = some (bookingOf "cancelled") ∧
    (runBookings userDb (bookingDb "cancelled") [.patchStatus 1 "admin" (some "approved")]
      1).map
      (fun b => b.status) = some "approved" ∧
    requestDb "resolved" 1 = some (requestOf "resolved") ∧
    (runMaintenance (requestDb "resolved")
      [.patchStatus 1 "admin" (statusOnly "pending") 900] 1).map (fun r => r.status) = some "pending" := by
  decide

/-- C13, amended. Once a booking's status is `cancelled` or `rejected`, or a
maintenance record's status is `resolved` or `cancelled`, no sequence of cancel
requests (by any requester, admin included) and of status updates by requesters
who are not admins changes the record. An admin status update still overwrites
the status from these states: a booking gets any of the four booking statuses,
a maintenance record any of the four maintenance statuses. -/
theorem terminal_status_amended (users : Collection User) (bookings : Collection Booking)
    (requests : Collection Maintenance) (id1 id2 : Nat) (booking : Booking)
    (request : Maintenance) (breqs : List BookingRequest) (mreqs : List MaintenanceRequest)
    (hb : bookings id1 = some booking)
    (hbs : booking.status = "cancelled" ∨ booking.status = "rejected")
    (hm : requests id2 = some request)
    (hms : request.status = "resolved" ∨ request.status = "cancelled")
    (hbreqs : ∀ req ∈ breqs, req.cancelOrNonAdminUpdate = true)
    (hmreqs : ∀ req ∈ mreqs, req.cancelOrNonAdminUpdate = true) :
    runBookings users bookings breqs id1 = some booking ∧
    runMaintenance requests mreqs id2 = some request ∧
    (∀ s, (s = "pending" ∨ s = "approved" ∨ s = "rejected" ∨ s = "cancelled") →
      (bookingsPatchStatus bookings id1 "admin" (some s)).2 id1 =
        some { booking with status := s }) ∧
    (∀ s (body : StatusBody) (now : Int),
      (s = "pending" ∨ s = "in_progress" ∨ s = "resolved" ∨ s = "cancelled") →
      body.status = some s →
      ∃ updated, (maintenancePatchStatus requests id2 "admin" body now).2 id2 = some updated ∧
        updated.status = s) := by
  refine ⟨runBookings_terminal users breqs bookings id1 booking hb hbs hbreqs,
    runMaintenance_terminal mreqs requests id2 request hm hms hmreqs, ?_, ?_⟩
  · intro s hs
    rw [bookingsPatchStatus_valid bookings id1 booking s hb ((validBookingStatus_iff s).mpr hs)]
    exact save_same _ _ _
  · intro s body now _ hbody
    rw [maintenancePatchStatus_admin requests id2 request body now hm]
    exact ⟨_, save_same _ _ _, by simp [updateData, hbody]⟩

/-- Witness of C13, amended: a rejected booking and a resolved request, each
under a cancel by its owner, a cancel by an admin and a status update by the
owner. -/
theorem terminal_status_amended_witness :
    bookingDb "rejected" 1 = some (bookingOf "rejected") ∧
    requestDb "resolved" 1 = some (requestOf "resolved") ∧
    runBookings userDb (bookingDb "rejected")
      sampleBookingReqs 1 = some (bookingOf "rejected") ∧
    runMaintenance (requestDb "resolved")
      sampleMaintenanceReqs 1 = some (requestOf "resolved") :=
  ⟨rfl, rfl,
    (terminal_status_amended userDb (bookingDb "rejected") (requestDb "resolved") 1 1
      (bookingOf "rejected") (requestOf "resolved") sampleBookingReqs sampleMaintenanceReqs
      rfl (Or.inr rfl) rfl (Or.inl rfl)
      (by decide) (by decide)).1,
    (terminal_status_amended userDb (bookingDb "rejected") (requestDb "resolved") 1 1
      (bookingOf "rejected") (requestOf "resolved") sampleBookingReqs sampleMaintenanceReqs
      rfl (Or.inr rfl) rfl (Or.inl rfl)
      (by decide) (by decide)).2.1⟩

/-! ## Lemmas on the lost-and-found status handler -/

/-- The answer of `lostfoundPatchStatus` on an existing item, by cases on the
requester and the requested status. -/
theorem lostfoundPatchStatus_cases (db : Collection LostFound) (id userId : Nat)
    (userRole : String) (status : Option String) (item : LostFound) (hdb : db id = some item) :
    (item.user ≠ userId ∧ userRole ≠ "admin" ∧
      lostfoundPatchStatus db id userId userRole status =
        (Response.fail 403 "Not authorized", db)) ∨
    ((item.user = userId ∨ userRole = "admin") ∧ enumValid ["open", "resolved"] status = true ∧
      lostfoundPatchStatus db id userId userRole status =
        (Response.json { item with status := status },
          save db id { item with status := status })) ∨
    ((item.user = userId ∨ userRole = "admin") ∧ enumValid ["open", "resolved"] status = false ∧
      lostfoundPatchStatus db id userId userRole status =
        (Response.fail 500 "Server error", db)) := by
  by_cases hauth : item.user ≠ userId ∧ userRole ≠ "admin"
  · left
    exact ⟨hauth.1, hauth.2, by simp [lostfoundPatchStatus, findById, hdb, hauth.1, hauth.2]⟩
  · have hauth2 : item.user = userId ∨ userRole = "admin" := by
      by_contra hcon
      push_neg at hcon
      exact hauth hcon
    have hif : ¬ (¬ item.user = userId ∧ ¬ userRole = "admin") := hauth
    cases hv : enumValid ["open", "resolved"] status with
    | true =>
      right; left
      refine ⟨hauth2, rfl, ?_⟩
      simp only [lostfoundPatchStatus, findById, hdb, ne_eq, hif, if_false, hv, if_true]
    | false =>
      right; right
      refine ⟨hauth2, rfl, ?_⟩
      simp only [lostfoundPatchStatus, findById, hdb, ne_eq, hif, if_false, hv,
        Bool.false_eq_true]

/-! ## Claims on lost-and-found items -/

/-- C14 as stated fails: on the sample item, whose status is `resolved`, the
owner's status update with the value `open` is accepted and the stored item is
`open` again. -/
theorem lostfound_reopen_counterexample :
    itemDb "resolved" 1 = some (itemOf "resolved") ∧ (itemOf "resolved").user = 7 ∧
    (lostfoundPatchStatus (itemDb "resolved") 1 7 "resident" (some "open")).1.status = 200 ∧
    (lostfoundPatchStatus (itemDb "resolved") 1 7 "resident" (some "open")).2 1 =
      some (itemOf "open") := by
  decide

/-- C14, amended. The status endpoint, called by the item's owner or an admin
with the value `open` or `resolved`, sets the item's status to that value
whatever the current status and leaves every other field as it was: it
performs `open → resolved` and equally `resolved → open`. -/
theorem lostfound_status_amended (db : Collection LostFound) (id userId : Nat)
    (userRole : String) (item : LostFound) (s : String) (hdb : db id = some item)
    (hauth : item.user = userId ∨ userRole = "admin") (hs : s = "open" ∨ s = "resolved") :
    lostfoundPatchStatus db id userId userRole (some s) =
      (Response.json { item with status := some s },
        save db id { item with status := some s }) := by
  rcases lostfoundPatchStatus_cases db id userId userRole (some s) item hdb with
    ⟨h1, h2, _⟩ | ⟨_, _, h⟩ | ⟨_, hbad, _⟩
  · rcases hauth with hown | hadm
    · exact absurd hown h1
    · exact absurd hadm h2
  · exact h
  · rcases hs with rfl | rfl <;> simp [enumValid] at hbad

/-- Witness of C14, amended: the owner resolves the open sample item, an admin
reopens the resolved one. -/
theorem lostfound_status_amended_witness :
    itemDb "open" 1 = some (itemOf "open") ∧
    lostfoundPatchStatus (itemDb "open") 1 7 "resident" (some "resolved") =
      (Response.json (itemOf "resolved"), save (itemDb "open") 1 (itemOf "resolved")) ∧
    lostfoundPatchStatus (itemDb "resolved") 1 2 "admin" (some "open") =
      (Response.json (itemOf "open"), save (itemDb "resolved") 1 (itemOf "open")) :=
  ⟨rfl,
    lostfound_status_amended (itemDb "open") 1 7 "resident" (itemOf "open") "resolved" rfl
      (Or.inl rfl) (Or.inr rfl),
    lostfound_status_amended (itemDb "resolved") 1 2 "admin" (itemOf "resolved") "open" rfl
      (Or.inr rfl) (Or.inl rfl)⟩

/-- C15. A status update on an id that has no item is answered 404, whatever
the role. On an existing item the update is let through (not answered 403) if
and only if the requester is the item's owner or has role `admin`: a requester
who is neither is answered 403 `Not authorized` with the collection unchanged,
and an owner or admin who sends `open` or `resolved` is answered 200 with the
item stored under that status. -/
theorem lostfound_status_authorization (db : Collection LostFound) (id userId : Nat)
    (userRole : String) (status : Option String) :
    (db id = none →
      lostfoundPatchStatus db id userId userRole status =
        (Response.fail 404 "Item not found", db)) ∧
    (∀ item, db id = some item →
      ((lostfoundPatchStatus db id userId userRole status).1.status ≠ 403 ↔
        (item.user = userId ∨ userRole = "admin")) ∧
      (¬ (item.user = userId ∨ userRole = "admin") →
        lostfoundPatchStatus db id userId userRole status =
          (Response.fail 403 "Not authorized", db)) ∧
      ((item.user = userId ∨ userRole = "admin") →
        (status = some "open" ∨ status = some "resolved") →
        lostfoundPatchStatus db id userId userRole status =
          (Response.json { item with status := status },
            save db id { item with status := status }))) := by
  constructor
  · intro hdb
    simp [lostfoundPatchStatus, findById, hdb]
  · intro item hdb
    rcases lostfoundPatchStatus_cases db id userId userRole status item hdb with
      ⟨h1, h2, h⟩ | ⟨hauth, hv, h⟩ | ⟨hauth, hv, h⟩
    · have hno : ¬ (item.user = userId ∨ userRole = "admin") := by
        rintro (hown | hadm)
        · exact h1 hown
        · exact h2 hadm
      rw [h]
      exact ⟨⟨fun hs => absurd rfl hs, fun ha => absurd ha hno⟩, fun _ => rfl,
        fun ha => absurd ha hno⟩
    · rw [h]
      exact ⟨⟨fun _ => hauth, fun _ => by simp [Response.json]⟩, fun hno => absurd hauth hno,
        fun _ _ => rfl⟩
    · rw [h]
      refine ⟨⟨fun _ => hauth, fun _ => by simp [Response.fail]⟩, fun hno => absurd hauth hno, ?_⟩
      intro _ hs
      rcases hs with rfl | rfl <;> simp [enumValid] at hv

/-- Witness of C15 on the sample open item: a stranger is refused, the owner
is let through, and id 2 has no item. -/
theorem lostfound_status_authorization_witness :
    itemDb "open" 1 = some (itemOf "open") ∧ itemDb "open" 2 = none ∧
    lostfoundPatchStatus (itemDb "open") 1 8 "resident" (some "resolved") =
      (Response.fail 403 "Not authorized", itemDb "open") ∧
    lostfoundPatchStatus (itemDb "open") 1 7 "resident" (some "resolved") =
      (Response.json (itemOf "resolved"), save (itemDb "open") 1 (itemOf "resolved")) ∧
    lostfoundPatchStatus (itemDb "open") 2 2 "admin" (some "resolved") =
      (Response.fail 404 "Item not found", itemDb "open") :=
  ⟨rfl, rfl,
    ((lostfound_status_authorization (itemDb "open") 1 8 "resident" (some "resolved")).2
      (itemOf "open") rfl).2.1 (by decide),
    ((lostfound_status_authorization (itemDb "open") 1 7 "resident" (some "resolved")).2
      (itemOf "open") rfl).2.2 (Or.inl rfl) (Or.inr rfl),
    (lostfound_status_authorization (itemDb "open") 2 2 "admin" (some "resolved")).1 rfl⟩

/-! ## Lemmas on creation -/

theorem maintenance_create_user (data : MaintenanceBody) (now : Int) (request : Maintenance)
    (h : Maintenance.create data now = some request) : data.user = some request.user := by
  unfold Maintenance.create at h
  split at h
  · rename_i hu
    split at h
    · cases h
      exact hu
    · exact Option.noConfusion h
  · exact Option.noConfusion h

theorem lostFound_create_user (data : LostFoundBody) (now : Int) (item : LostFound)
    (h : LostFound.create data now = some item) : data.user = some item.user := by
  unfold LostFound.create at h
  split at h
  · rename_i hu
    split at h
    · cases h
      exact hu
    · exact Option.noConfusion h
  · exact Option.noConfusion h

theorem bookingsPost_success (db : Collection Booking) (newId userId : Nat)
    (body : BookingBody) (now : Int)
    (hok : (bookingsPost db newId userId (.object body) now).1.status = 200) :
    ∃ booking, Booking.create { body with user := some userId } now = some booking ∧
      bookingsPost db newId userId (.object body) now =
        (Response.json (.one booking), save db newId booking) := by
  cases hc : Booking.create { body with user := some userId } now with
  | none =>
    have h : bookingsPost db newId userId (.object body) now =
        (Response.fail 400 "Invalid data", db) := by
      simp only [bookingsPost, hc]
    rw [h] at hok
    simp [Response.fail] at hok
  | some booking =>
    exact ⟨booking, rfl, by simp only [bookingsPost, hc]⟩

theorem maintenancePost_success (db : Collection Maintenance) (newId userId : Nat)
    (body : MaintenanceBody) (now : Int)
    (hok : (maintenancePost db newId userId body now).1.status = 201) :
    ∃ request, Maintenance.create { body with user := some userId } now = some request ∧
      maintenancePost db newId userId body now =
        ({ status := 201, error := none, doc := some request }, save db newId request) := by
  cases hc : Maintenance.create { body with user := some userId } now with
  | none =>
    have h : maintenancePost db newId userId body now =
        (Response.fail 400 "Invalid data", db) := by
      simp only [maintenancePost, hc]
    rw [h] at hok
    simp [Response.fail] at hok
  | some request =>
    exact ⟨request, rfl, by simp only [maintenancePost, hc]⟩

theorem lostfoundPost_success (db : Collection LostFound) (newId userId : Nat)
    (upload : Except String (Option String)) (body : LostFoundBody) (now : Int)
    (hok : (lostfoundPost db newId userId upload body now).1.status = 200) :
    ∃ data item, data.user = some userId ∧ LostFound.create data now = some item ∧
      lostfoundPost db newId userId upload body now =
        (Response.json item, save db newId item) := by
  unfold lostfoundPost at hok ⊢
  cases upload with
  | error msg => simp [Response.fail] at hok
  | ok file =>
    simp only at hok ⊢
    split at hok
    · simp [Response.fail] at hok
    · rename_i hreq
      rw [if_neg hreq]
      cases file with
      | none =>
        simp only at hok ⊢
        cases hc : LostFound.create { body with user := some userId } now with
        | none => rw [hc] at hok; simp [Response.fail] at hok
        | some item => exact ⟨_, item, rfl, hc, rfl⟩
      | some filename =>
        simp only at hok ⊢
        cases hc : LostFound.create
            { body with user := some userId
                        image := some ("/uploads/lostfound/" ++ filename) } now with
        | none => rw [hc] at hok; simp [Response.fail] at hok
        | some item => exact ⟨_, item, rfl, hc, rfl⟩

/-- What the status update and the cancel do to `resolvedAt`: the update
stamps the current time exactly when the requested status is `resolved`, and
otherwise keeps the stored value, as the cancel does. -/
theorem resolvedAt_update_cancel (request : Maintenance) (body : StatusBody) (now : Int) :
    (body.status = some "resolved" → (updateData body now request).resolvedAt = some now) ∧
    (body.status ≠ some "resolved" →
      (updateData body now request).resolvedAt = request.resolvedAt) ∧
    ({ request with status := "cancelled" } : Maintenance).resolvedAt = request.resolvedAt := by
  refine ⟨?_, ?_, rfl⟩
  · intro h; simp [updateData, h]
  · intro h; simp [updateData, h]

/-! ## Claims on maintenance records and on creation -/

/-- C16 fails on creation. A create whose body carries `resolvedAt` stores
that value although the status is `pending`, and a create whose body carries
the status `resolved` stores a resolved record with no `resolvedAt`. -/
theorem maintenance_create_resolvedAt :
    ((maintenancePost noDocuments 1 7 (requestBody none (some 50) none) 100).2 1).map
      (fun r => (r.status, r.resolvedAt)) = some ("pending", some 50) ∧
    ((maintenancePost noDocuments 1 7 (requestBody (some "resolved") none none) 100).2 1).map
      (fun r => (r.status, r.resolvedAt)) = some ("resolved", none) := by
  decide

/-- C17 fails when the create body carries `createdAt`. A request created at
time 100 with the body member `createdAt = 5000` and resolved by an admin at
the later time 200 is stored with `resolvedAt = 200`, which is less than its
`createdAt = 5000`. -/
theorem maintenance_resolved_before_created :
    (100 : Int) ≤ 200 ∧
    ((runMaintenance noDocuments
        [.post 1 7 (requestBody none none (some 5000)) 100,
          .patchStatus 1 "admin" (statusOnly "resolved") 200] 1).map
      (fun r => (r.status, r.resolvedAt, r.createdAt))) = some ("resolved", some 200, 5000) ∧
    (200 : Int) < 5000 := by
  decide

/-- C18 as stated fails: on the sample record, whose status is `resolved`, an
admin status update to `cancelled` is accepted, a move that is neither
`pending → in_progress` nor `in_progress → resolved` and that reaches
`cancelled` through the status endpoint. -/
theorem maintenance_transition_counterexample :
    requestDb "resolved" 1 = some (requestOf "resolved") ∧
    (maintenancePatchStatus (requestDb "resolved") 1 "admin" (statusOnly "cancelled")
      900).1.status = 200 ∧
    ((maintenancePatchStatus (requestDb "resolved") 1 "admin" (statusOnly "cancelled")
      900).2 1).map (fun r => r.status) = some "cancelled" := by
  decide

/-- C18, amended. An admin status update on an existing record that requests
one of the statuses `pending`, `in_progress`, `resolved`, `cancelled` is
accepted whatever the record's current status, so every move between these
statuses, the move to `cancelled` included, is open to an admin through the
status endpoint; after it the record's status is the requested one, hence one
of the four. -/
theorem maintenance_status_update_amended (db : Collection Maintenance) (id : Nat)
    (request : Maintenance) (body : StatusBody) (now : Int) (s : String)
    (hdb : db id = some request) (hbody : body.status = some s)
    (hs : s = "pending" ∨ s = "in_progress" ∨ s = "resolved" ∨ s = "cancelled") :
    maintenancePatchStatus db id "admin" body now =
      (Response.json (updateData body now request), save db id (updateData body now request)) ∧
    (updateData body now request).status = s ∧
    ((updateData body now request).status = "pending" ∨
      (updateData body now request).status = "in_progress" ∨
      (updateData body now request).status = "resolved" ∨
      (updateData body now request).status = "cancelled") := by
  have hst : (updateData body now request).status = s := by simp [updateData, hbody]
  exact ⟨maintenancePatchStatus_admin db id request body now hdb, hst, hst ▸ hs⟩

/-- Witness of C18, amended: an admin sets the sample cancelled record to
`in_progress`. -/
theorem maintenance_status_update_amended_witness :
    requestDb "cancelled" 1 = some (requestOf "cancelled") ∧
    (maintenancePatchStatus (requestDb "cancelled") 1 "admin" (statusOnly "in_progress")
      900).1.status = 200 ∧
    (updateData (statusOnly "in_progress") 900 (requestOf "cancelled")).status = "in_progress" :=
  ⟨rfl, by decide,
    (maintenance_status_update_amended (requestDb "cancelled") 1 (requestOf "cancelled")
      (statusOnly "in_progress") 900 "in_progress" rfl rfl (Or.inr (Or.inl rfl))).2.1⟩

/-- C19 fails when the create body carries a status. A resident's booking
created with the body member `status = approved` is stored as `approved`, a
maintenance request created with `status = resolved` is stored as `resolved`,
and a lost-and-found item created with `status = resolved` is stored as
`resolved`; each create is answered as a success. -/
theorem create_keeps_body_status :
    (bookingsPost noDocuments 1 7 (.object (bookingBody (some "approved"))) 100).1.status
      = 200 ∧
    ((bookingsPost noDocuments 1 7 (.object (bookingBody (some "approved"))) 100).2 1).map
      (fun b => b.status) = some "approved" ∧
    (maintenancePost noDocuments 1 7 (requestBody (some "resolved") none none) 100).1.status
      = 201 ∧
    ((maintenancePost noDocuments 1 7 (requestBody (some "resolved") none none) 100).2 1).map
      (fun r => r.status) = some "resolved" ∧
    (lostfoundPost noDocuments 1 7 (.ok none) (itemBody (some "resolved")) 100).1.status = 200 ∧
    ((lostfoundPost noDocuments 1 7 (.ok none) (itemBody (some "resolved")) 100).2 1).bind
      (fun i => i.status) = some "resolved" := by
  decide

/-- What holds of the owner at creation: a successful create of a booking from
an object body (answered 200), of a maintenance record (answered 201) or of a
lost-and-found item (answered 200) stores, under the new id, the document it
answers with, and the `user` of that document is the id of the authenticated
requester, whatever `user` member the body carries. -/
theorem created_owner_object_body (bookings : Collection Booking)
    (requests : Collection Maintenance) (items : Collection LostFound) (newId userId : Nat)
    (bbody : BookingBody) (mbody : MaintenanceBody) (lbody : LostFoundBody)
    (upload : Except String (Option String)) (now : Int) :
    ((bookingsPost bookings newId userId (.object bbody) now).1.status = 200 →
      ∃ booking,
        (bookingsPost bookings newId userId (.object bbody) now).1.doc = some (.one booking) ∧
        (bookingsPost bookings newId userId (.object bbody) now).2 newId = some booking ∧
        booking.user = some userId) ∧
    ((maintenancePost requests newId userId mbody now).1.status = 201 →
      ∃ request, (maintenancePost requests newId userId mbody now).1.doc = some request ∧
        (maintenancePost requests newId userId mbody now).2 newId = some request ∧
        request.user = userId) ∧
    ((lostfoundPost items newId userId upload lbody now).1.status = 200 →
      ∃ item, (lostfoundPost items newId userId upload lbody now).1.doc = some item ∧
        (lostfoundPost items newId userId upload lbody now).2 newId = some item ∧
        item.user = userId) := by
  refine ⟨?_, ?_, ?_⟩
  · intro hok
    obtain ⟨booking, hc, h⟩ := bookingsPost_success bookings newId userId bbody now hok
    rw [h]
    exact ⟨booking, rfl, save_same _ _ _, (booking_create_status _ _ _ hc).2⟩
  · intro hok
    obtain ⟨request, hc, h⟩ := maintenancePost_success requests newId userId mbody now hok
    rw [h]
    exact ⟨request, rfl, save_same _ _ _,
      (Option.some.inj (maintenance_create_user _ _ _ hc)).symm⟩
  · intro hok
    obtain ⟨data, item, hu, hc, h⟩ :=
      lostfoundPost_success items newId userId upload lbody now hok
    rw [h]
    refine ⟨item, rfl, save_same _ _ _, ?_⟩
    have := lostFound_create_user _ _ _ hc
    rw [hu] at this
    exact (Option.some.inj this).symm

/-- C20 fails for a booking created from an array body. User 7 posts an array
whose one element names user 99 as `user`: the create answers 200 with the
created booking, and the booking stored under id 1 has `user` 99, not 7. -/
theorem booking_array_owner :
    (bookingBody none).user = some 99 ∧
    (bookingsPost noDocuments 1 7 (.array [bookingBody none]) 100).1 =
      Response.json (.many [{ facility := "Clubhouse", user := some 99, date := 5000
                              from_ := some "10:00", to_ := some "12:00", status := "pending"
                              createdAt := 100 }]) ∧
    ((bookingsPost noDocuments 1 7 (.array [bookingBody none]) 100).2 1).map
      (fun b => b.user) = some (some 99) := by
  decide

/-! ## Claims on deletion, failed vote changes and profiles -/

/-- C28. For an admin and an existing item, the delete answers 200 and the
item is absent afterwards in all three cases: the item has no image, the image
file is removed, or removing the image file fails (then the file stays and the
failure is swallowed). For a requester who is not an admin the delete answers
403, the collection and the files are unchanged and `fs.unlink` is not called. -/
theorem lostfound_delete_outcome (db : Collection LostFound) (files : List String) (id : Nat)
    (userRole : String) (unlinkFails : Bool) (item : LostFound) (hdb : db id = some item) :
    (userRole = "admin" →
      (lostfoundDelete db files id userRole unlinkFails).response.status = 200 ∧
      (lostfoundDelete db files id userRole unlinkFails).response.error = none ∧
      (lostfoundDelete db files id userRole unlinkFails).items id = none ∧
      (∀ k, k ≠ id → (lostfoundDelete db files id userRole unlinkFails).items k = db k)) ∧
    (userRole = "admin" → ∀ image, item.image = some image → image ≠ "" →
      (lostfoundDelete db files id userRole unlinkFails).unlinkCalls = [image] ∧
      (lostfoundDelete db files id userRole unlinkFails).files =
        if unlinkFails then files else files.erase image) ∧
    (userRole ≠ "admin" →
      (lostfoundDelete db files id userRole unlinkFails).response =
        Response.fail 403 "Only administrators can remove items" ∧
      (lostfoundDelete db files id userRole unlinkFails).items = db ∧
      (lostfoundDelete db files id userRole unlinkFails).files = files ∧
      (lostfoundDelete db files id userRole unlinkFails).unlinkCalls = []) := by
  refine ⟨?_, ?_, ?_⟩
  · intro hrole
    subst hrole
    cases himg : item.image with
    | none =>
      simp [lostfoundDelete, findById, hdb, himg, deleteOne]
      intro k hk hk2
      exact absurd hk2 hk
    | some image =>
      by_cases ht : truthy (some image) = true
      · simp [lostfoundDelete, findById, hdb, himg, ht, deleteOne]
        intro k hk hk2
        exact absurd hk2 hk
      · simp [lostfoundDelete, findById, hdb, himg, ht, deleteOne]
        intro k hk hk2
        exact absurd hk2 hk
  · intro hrole image himg hne
    subst hrole
    have ht : truthy (some image) = true := by simp [truthy, hne]
    cases unlinkFails <;> simp [lostfoundDelete, findById, hdb, himg, ht, unlink]
  · intro hrole
    simp [lostfoundDelete, hrole]

/-- Witness of C28: an admin deletes the sample item whose image cannot be
removed; a resident is refused. -/
theorem lostfound_delete_outcome_witness :
    imageDb (some "/uploads/lostfound/image-1.png") 1 =
      some (itemWithImage (some "/uploads/lostfound/image-1.png")) ∧
    (lostfoundDelete (imageDb (some "/uploads/lostfound/image-1.png"))
      ["/uploads/lostfound/image-1.png"] 1 "admin" true).response.status = 200 ∧
    (lostfoundDelete (imageDb (some "/uploads/lostfound/image-1.png"))
      ["/uploads/lostfound/image-1.png"] 1 "admin" true).items 1 = none ∧
    (lostfoundDelete (imageDb (some "/uploads/lostfound/image-1.png"))
      ["/uploads/lostfound/image-1.png"] 1 "resident" true).items =
        imageDb (some "/uploads/lostfound/image-1.png") :=
  ⟨rfl, by decide, by decide,
    ((lostfound_delete_outcome (imageDb (some "/uploads/lostfound/image-1.png"))
      ["/uploads/lostfound/image-1.png"] 1 "resident" true
      (itemWithImage (some "/uploads/lostfound/image-1.png")) rfl).2.2 (by decide)).2.1⟩

/-- C29. On an open poll, a `changeVote` whose `optionId` is the `_id` of none
of the poll's options is answered 404 `Option not found` and the collection is
unchanged: the stored poll keeps every vote list, the requester's previous vote
included, although the handler has stripped the requester from the vote lists
of the loaded document before looking the option up. -/
theorem changeVote_bad_option (db : Collection Poll) (id optionId userId : Nat) (now : Int)
    (poll : Poll) (hdb : db id = some poll) (hlive : now ≤ poll.endDate)
    (hopt : ∀ opt ∈ poll.options, opt._id ≠ optionId) :
    changeVote db id optionId userId now = (Response.fail 404 "Option not found", db) ∧
    (changeVote db id optionId userId now).2 id = some poll ∧
    (∀ opt ∈ poll.options, userId ∈ opt.votes →
      ∀ stripped ∈ removeVotes poll.options userId, userId ∉ stripped.votes) := by
  have hend : ¬ poll.endDate < now := by omega
  have hnone : optionsId (removeVotes poll.options userId) optionId = none :=
    (optionsId_removeVotes_none_iff _ _ _).mpr ((optionsId_none_iff _ _).mpr hopt)
  have h := changeVote_noOption db id optionId userId now poll hdb hend hnone
  refine ⟨h, by rw [h]; exact hdb, ?_⟩
  intro _ _ _ stripped hs
  simp only [removeVotes, List.mem_map] at hs
  obtain ⟨o, _, rfl⟩ := hs
  simp [List.mem_filter]

/-- Witness of C29 on the sample poll: user 7, who voted for option 10, asks
to change to option 12, which the poll does not have. -/
theorem changeVote_bad_option_witness :
    pollDb 1 = some pollA ∧ (500 : Int) ≤ pollA.endDate ∧
    (∀ opt ∈ pollA.options, opt._id ≠ 12) ∧
    changeVote pollDb 1 12 7 500 = (Response.fail 404 "Option not found", pollDb) ∧
    (changeVote pollDb 1 12 7 500).2 1 = some pollA :=
  ⟨rfl, by decide, by decide,
    (changeVote_bad_option pollDb 1 12 7 500 pollA rfl (by decide) (by decide)).1,
    (changeVote_bad_option pollDb 1 12 7 500 pollA rfl (by decide) (by decide)).2.1⟩

/-- C30 fails on the role. The resident with id 7 updates their own profile
with a body that carries `role: admin` and a new password: the update is let
through, the stored password is kept, and the stored role becomes `admin`. -/
theorem resident_promotes_self :
    userDb 7 = some residentSeven ∧ residentSeven.role = "resident" ∧
    promoteBody.role = some "admin" ∧
    (residentsPut userDb 7 7 "resident" promoteBody).1.status = 200 ∧
    ((residentsPut userDb 7 7 "resident" promoteBody).2 7).map (fun u => u.password) =
      some "hash-7" ∧
    ((residentsPut userDb 7 7 "resident" promoteBody).2 7).map (fun u => u.role) =
      some "admin" := by
  decide

/-! ## Claims on reading maintenance records -/

theorem matchesQuery_user (userId : Nat) (userRole : String) (params : ListParams)
    (request : Maintenance) (hrole : userRole ≠ "admin")
    (h : matchesQuery (buildQuery userId userRole params) request = true) :
    request.user = userId := by
  simp only [matchesQuery, buildQuery, hrole, ne_eq, not_false_eq_true, if_true,
    Bool.and_eq_true] at h
  simpa using h.1.1.1

theorem matchesQuery_noParams (userId : Nat) (userRole : String) (request : Maintenance) :
    matchesQuery (buildQuery userId userRole noParams) request =
      (if userRole ≠ "admin" then request.user == userId else true) := by
  by_cases hrole : userRole = "admin"
  · simp [matchesQuery, buildQuery, noParams, truthy, hrole]
  · simp [matchesQuery, buildQuery, noParams, truthy, hrole]

theorem matchesQuery_narrows (userId : Nat) (userRole : String) (params : ListParams)
    (request : Maintenance)
    (h : matchesQuery (buildQuery userId userRole params) request = true) :
    matchesQuery (buildQuery userId userRole noParams) request = true := by
  rw [matchesQuery_noParams]
  by_cases hrole : userRole = "admin"
  · simp [hrole]
  · simp only [ne_eq, hrole, not_false_eq_true, if_true]
    simpa using matchesQuery_user userId userRole params request hrole h

theorem mem_maintenanceList (docs : List Maintenance) (userId : Nat) (userRole : String)
    (params : ListParams) :
    ∃ listed, maintenanceList docs userId userRole params = Response.json listed ∧
      ∀ r, r ∈ listed ↔ r ∈ docs ∧ matchesQuery (buildQuery userId userRole params) r = true := by
  refine ⟨_, rfl, ?_⟩
  intro r
  rw [List.mem_mergeSort, List.mem_filter]

/-- C21. The maintenance list answers 200 with a list `listed`. For a
requester who is not an admin, whatever the parameters `status`, `type`,
`startDate` and `endDate`, every listed record is a stored record owned by the
requester, and the answer is the one the handler gives when the store holds the
requester's records only; without parameters the list holds exactly the
requester's records. For every requester the list with parameters is contained
in the list without: parameters narrow, never widen. For an admin the query has
no owner key and the list without parameters holds every stored record. -/
theorem maintenance_list_isolation (docs : List Maintenance) (userId : Nat)
    (userRole : String) (params : ListParams) :
    ∃ listed unfiltered,
      maintenanceList docs userId userRole params = Response.json listed ∧
      maintenanceList docs userId userRole noParams = Response.json unfiltered ∧
      (∀ r ∈ listed, r ∈ unfiltered) ∧
      (userRole ≠ "admin" →
        (∀ r ∈ listed, r ∈ docs ∧ r.user = userId) ∧
        (∀ r, r ∈ unfiltered ↔ r ∈ docs ∧ r.user = userId) ∧
        maintenanceList docs userId userRole params =
          maintenanceList (docs.filter (fun r => r.user == userId)) userId userRole params) ∧
      (userRole = "admin" →
        (buildQuery userId userRole params).user = none ∧
        (∀ r, r ∈ unfiltered ↔ r ∈ docs)) := by
  obtain ⟨listed, h1, hl⟩ := mem_maintenanceList docs userId userRole params
  obtain ⟨unfiltered, h2, hu⟩ := mem_maintenanceList docs userId userRole noParams
  refine ⟨listed, unfiltered, h1, h2, ?_, ?_, ?_⟩
  · intro r hr
    exact (hu r).mpr ⟨((hl r).mp hr).1,
      matchesQuery_narrows userId userRole params r ((hl r).mp hr).2⟩
  · intro hrole
    refine ⟨?_, ?_, ?_⟩
    · intro r hr
      exact ⟨((hl r).mp hr).1, matchesQuery_user userId userRole params r hrole ((hl r).mp hr).2⟩
    · intro r
      rw [hu r, matchesQuery_noParams]
      simp [hrole]
    · unfold maintenanceList
      rw [List.filter_filter]
      congr 2
      apply List.filter_congr
      intro r _
      cases hm : matchesQuery (buildQuery userId userRole params) r with
      | false => simp
      | true =>
        have := matchesQuery_user userId userRole params r hrole hm
        simp [this]
  · intro hrole
    refine ⟨by simp [buildQuery, hrole], ?_⟩
    intro r
    rw [hu r, matchesQuery_noParams]
    simp [hrole]

/-- Witness of C21: resident 7 lists resolved records among two of their own
and one of user 8. -/
theorem maintenance_list_isolation_witness :
    "resident" ≠ "admin" ∧
    maintenanceList
        [recordOf 7 "resolved" 100 (some 500), recordOf 8 "resolved" 200 (some 600),
          recordOf 7 "pending" 300 none] 7 "resident" resolvedParams =
      maintenanceList
        ([recordOf 7 "resolved" 100 (some 500), recordOf 8 "resolved" 200 (some 600),
          recordOf 7 "pending" 300 none].filter (fun r => r.user == 7)) 7 "resident"
        resolvedParams := by
  obtain ⟨_, _, _, _, _, h, _⟩ := maintenance_list_isolation
    [recordOf 7 "resolved" 100 (some 500), recordOf 8 "resolved" 200 (some 600),
      recordOf 7 "pending" 300 none] 7 "resident" resolvedParams
  exact ⟨by decide, (h (by decide)).2.2⟩

/-! ## Lemmas on the chat handlers -/

/-- Where `saveFirst` writes: at the position of the chat `find?` returns;
every other position keeps its chat. -/
theorem saveFirst_getElem? (filter : Chat → Bool) (update : Chat → Chat) (chats : List Chat)
    (chat : Chat) (h : chats.find? filter = some chat) :
    ∃ i : Nat, chats[i]? = some chat ∧
      (saveFirst filter update chats)[i]? = some (update chat) ∧
      ∀ j, j ≠ i → (saveFirst filter update chats)[j]? = chats[j]? := by
  induction chats with
  | nil => simp at h
  | cons c rest ih =>
    by_cases hc : filter c = true
    · have hch : c = chat := by simpa [List.find?, hc] using h
      subst hch
      refine ⟨0, by simp, by simp [saveFirst, hc], ?_⟩
      intro j hj
      cases j with
      | zero => exact absurd rfl hj
      | succ j => simp [saveFirst, hc]
    · have hrest : rest.find? filter = some chat := by simpa [List.find?, hc] using h
      obtain ⟨i, hi, hup, hother⟩ := ih hrest
      refine ⟨i + 1, by simpa using hi, by simpa [saveFirst, hc] using hup, ?_⟩
      intro j hj
      cases j with
      | zero => simp [saveFirst, hc]
      | succ j =>
        have := hother j (by omega)
        simpa [saveFirst, hc] using this

theorem saveFirst_keys (filter : Chat → Bool) (update : Chat → Chat) (chats : List Chat)
    (hkey : ∀ c, chatKey (update c) = chatKey c) :
    (saveFirst filter update chats).map chatKey = chats.map chatKey := by
  induction chats with
  | nil => rfl
  | cons c rest ih =>
    by_cases hc : filter c = true
    · simp [saveFirst, hc, hkey]
    · simp [saveFirst, hc, ih]

theorem saveFirst_participants (filter : Chat → Bool) (update : Chat → Chat)
    (chats : List Chat) (hpart : ∀ c, (update c).participants = c.participants) :
    ∀ c ∈ saveFirst filter update chats, ∃ c0 ∈ chats, c.participants = c0.participants := by
  induction chats with
  | nil => intro c hc; simp [saveFirst] at hc
  | cons d rest ih =>
    intro c hc
    by_cases hd : filter d = true
    · rw [saveFirst, if_pos hd] at hc
      rcases List.mem_cons.mp hc with heq | hmem
      · exact ⟨d, List.mem_cons_self _ _, by rw [heq]; exact hpart d⟩
      · exact ⟨c, List.mem_cons_of_mem _ hmem, rfl⟩
    · rw [saveFirst, if_neg hd] at hc
      rcases List.mem_cons.mp hc with heq | hmem
      · exact ⟨d, List.mem_cons_self _ _, by rw [heq]⟩
      · obtain ⟨c0, h0, hp⟩ := ih c hmem
        exact ⟨c0, List.mem_cons_of_mem _ h0, hp⟩

theorem saveFirst_append_last (filter : Chat → Bool) (update : Chat → Chat) (chats : List Chat)
    (last : Chat) (hnone : ∀ c ∈ chats, filter c = false) (hlast : filter last = true) :
    saveFirst filter update (chats ++ [last]) = chats ++ [update last] := by
  induction chats with
  | nil => simp [saveFirst, hlast]
  | cons c rest ih =>
    have hc : filter c = false := hnone c (List.mem_cons_self _ _)
    have := ih (fun d hd => hnone d (List.mem_cons_of_mem _ hd))
    simp [saveFirst, hc, this]

theorem chatKey_pushMessage (chat : Chat) (sender : Nat) (content : String) (now : Int) :
    chatKey (pushMessage chat sender content now) = chatKey chat := rfl

theorem chatGet_notFound (items : Collection LostFound) (chats : List Chat)
    (itemId userId : Nat) (now : Int) (hitem : items itemId = none) :
    chatGet items chats itemId userId now = (Response.fail 404 "Item not found", chats) := by
  simp [chatGet, findById, hitem]

theorem chatGet_found (items : Collection LostFound) (chats : List Chat)
    (itemId userId : Nat) (now : Int) (item : LostFound) (chat : Chat)
    (hitem : items itemId = some item)
    (hfind : chats.find? (chatFilter itemId userId item) = some chat) :
    chatGet items chats itemId userId now = (Response.json chat, chats) := by
  simp [chatGet, findById, hitem, hfind]

theorem chatGet_created (items : Collection LostFound) (chats : List Chat)
    (itemId userId : Nat) (now : Int) (item : LostFound) (hitem : items itemId = some item)
    (hfind : chats.find? (chatFilter itemId userId item) = none) :
    chatGet items chats itemId userId now =
      (Response.json (newChat itemId userId item now),
        chats ++ [newChat itemId userId item now]) := by
  simp [chatGet, findById, hitem, hfind]

theorem chatPostMessage_blank (items : Collection LostFound) (chats : List Chat)
    (itemId userId : Nat) (content : Option String) (now : Int)
    (hblank : blankContent content = true) :
    chatPostMessage items chats itemId userId content now =
      (Response.fail 400 "Message content is required", chats) := by
  cases content with
  | none => rfl
  | some text => simp [chatPostMessage, hblank]

theorem chatPostMessage_notFound (items : Collection LostFound) (chats : List Chat)
    (itemId userId : Nat) (text : String) (now : Int)
    (hblank : blankContent (some text) = false) (hitem : items itemId = none) :
    chatPostMessage items chats itemId userId (some text) now =
      (Response.fail 404 "Item not found", chats) := by
  simp [chatPostMessage, hblank, findById, hitem]

theorem chatPostMessage_found (items : Collection LostFound) (chats : List Chat)
    (itemId userId : Nat) (text : String) (now : Int) (item : LostFound) (chat : Chat)
    (hblank : blankContent (some text) = false) (hitem : items itemId = some item)
    (hfind : chats.find? (chatFilter itemId userId item) = some chat) :
    chatPostMessage items chats itemId userId (some text) now =
      (Response.json (pushMessage chat userId text now),
        saveFirst (chatFilter itemId userId item)
          (fun found => pushMessage found userId text now) chats) := by
  simp [chatPostMessage, hblank, findById, hitem, hfind]

theorem chatPostMessage_created (items : Collection LostFound) (chats : List Chat)
    (itemId userId : Nat) (text : String) (now : Int) (item : LostFound)
    (hblank : blankContent (some text) = false) (hitem : items itemId = some item)
    (hfind : chats.find? (chatFilter itemId userId item) = none) :
    chatPostMessage items chats itemId userId (some text) now =
      (Response.json (pushMessage (newChat itemId userId item now) userId text now),
        chats ++ [pushMessage (newChat itemId userId item now) userId text now]) := by
  simp [chatPostMessage, hblank, findById, hitem, hfind]

/-- The stored chats after one request: as before, or with one chat updated by
a message, or with one new chat of the requester at the end, which happens only
when no chat of the item has the requester among its participants. -/
theorem stepChat_cases (items : Collection LostFound) (chats : List Chat) (req : ChatRequest) :
    stepChat items chats req = chats ∨
    (∃ filter sender content now,
      stepChat items chats req =
        saveFirst filter (fun found => pushMessage found sender content now) chats) ∨
    (∃ itemId userId owner created,
      stepChat items chats req = chats ++ [created] ∧ created.itemId = itemId ∧
      created.participants = [userId, owner] ∧
      ∀ c ∈ chats, c.itemId = itemId → userId ∉ c.participants) := by
  have hnew : ∀ (itemId userId : Nat) (item : LostFound),
      chats.find? (chatFilter itemId userId item) = none →
      ∀ c ∈ chats, c.itemId = itemId → userId ∉ c.participants := by
    intro itemId userId item hfind c hc hid hmem
    have := List.find?_eq_none.mp hfind c hc
    simp [chatFilter, hid, hmem] at this
  cases req with
  | get itemId userId now =>
    simp only [stepChat]
    cases hitem : items itemId with
    | none => left; rw [chatGet_notFound items chats itemId userId now hitem]
    | some item =>
      cases hfind : chats.find? (chatFilter itemId userId item) with
      | some chat => left; rw [chatGet_found items chats itemId userId now item chat hitem hfind]
      | none =>
        right; right
        rw [chatGet_created items chats itemId userId now item hitem hfind]
        exact ⟨itemId, userId, item.user, newChat itemId userId item now, rfl, rfl, rfl,
          hnew itemId userId item hfind⟩
  | postMessage itemId userId content now =>
    simp only [stepChat]
    cases hblank : blankContent content with
    | true => left; rw [chatPostMessage_blank items chats itemId userId content now hblank]
    | false =>
      cases content with
      | none => simp [blankContent] at hblank
      | some text =>
        cases hitem : items itemId with
        | none =>
          left; rw [chatPostMessage_notFound items chats itemId userId text now hblank hitem]
        | some item =>
          cases hfind : chats.find? (chatFilter itemId userId item) with
          | some chat =>
            right; left
            rw [chatPostMessage_found items chats itemId userId text now item chat hblank hitem
              hfind]
            exact ⟨chatFilter itemId userId item, userId, text, now, rfl⟩
          | none =>
            right; right
            rw [chatPostMessage_created items chats itemId userId text now item hblank hitem
              hfind]
            exact ⟨itemId, userId, item.user,
              pushMessage (newChat itemId userId item now) userId text now, rfl, rfl, rfl,
              hnew itemId userId item hfind⟩

theorem stepChat_keys (items : Collection LostFound) (chats : List Chat) (req : ChatRequest)
    (hinv : (chats.map chatKey).Nodup) : ((stepChat items chats req).map chatKey).Nodup := by
  rcases stepChat_cases items chats req with h | ⟨f, sender, content, now, h⟩ |
    ⟨itemId, userId, owner, created, h, hid, hpart, hnone⟩
  · rw [h]; exact hinv
  · rw [h, saveFirst_keys _ _ _ (fun c => chatKey_pushMessage c sender content now)]
    exact hinv
  · rw [h, List.map_append, List.map_singleton]
    apply List.Nodup.append hinv (List.nodup_singleton _)
    rw [List.disjoint_singleton]
    intro hmem
    obtain ⟨c, hc, hkey⟩ := List.mem_map.mp hmem
    have hk : c.itemId = itemId ∧ c.participants.head? = some userId := by
      simpa [chatKey, hid, hpart] using hkey
    exact hnone c hc hk.1 (List.mem_of_mem_head? hk.2)

theorem stepChat_two_participants (items : Collection LostFound) (chats : List Chat)
    (req : ChatRequest) (hinv : ∀ c ∈ chats, c.participants.length = 2) :
    ∀ c ∈ stepChat items chats req, c.participants.length = 2 := by
  rcases stepChat_cases items chats req with h | ⟨f, sender, content, now, h⟩ |
    ⟨itemId, userId, owner, created, h, hid, hpart, hnone⟩
  · rw [h]; exact hinv
  · rw [h]
    intro c hc
    obtain ⟨c0, h0, hp⟩ := saveFirst_participants f
      (fun found => pushMessage found sender content now) chats (fun _ => rfl) c hc
    rw [hp]
    exact hinv c0 h0
  · rw [h]
    intro c hc
    rcases List.mem_append.mp hc with hc | hc
    · exact hinv c hc
    · rw [List.mem_singleton.mp hc, hpart]
      rfl

theorem saveFirst_frame (filter : Chat → Bool) (update : Chat → Chat) (chats : List Chat)
    (hframe : ∀ c, (update c).itemId = c.itemId ∧ (update c).participants = c.participants) :
    ∀ c ∈ saveFirst filter update chats,
      ∃ c0 ∈ chats, c.itemId = c0.itemId ∧ c.participants = c0.participants := by
  induction chats with
  | nil => intro c hc; simp [saveFirst] at hc
  | cons d rest ih =>
    intro c hc
    by_cases hd : filter d = true
    · rw [saveFirst, if_pos hd] at hc
      rcases List.mem_cons.mp hc with heq | hmem
      · exact ⟨d, List.mem_cons_self _ _, by rw [heq]; exact hframe d⟩
      · exact ⟨c, List.mem_cons_of_mem _ hmem, rfl, rfl⟩
    · rw [saveFirst, if_neg hd] at hc
      rcases List.mem_cons.mp hc with heq | hmem
      · exact ⟨d, List.mem_cons_self _ _, by rw [heq]; exact ⟨rfl, rfl⟩⟩
      · obtain ⟨c0, h0, hp⟩ := ih c hmem
        exact ⟨c0, List.mem_cons_of_mem _ h0, hp⟩

/-- Every chat is a chat of a stored item, and its participants are the user
who opened it followed by the owner of that item: one request keeps this. -/
theorem stepChat_opener_owner (items : Collection LostFound) (chats : List Chat)
    (req : ChatRequest)
    (hinv : ∀ c ∈ chats, ∃ opener item, items c.itemId = some item ∧
      c.participants = [opener, item.user]) :
    ∀ c ∈ stepChat items chats req, ∃ opener item, items c.itemId = some item ∧
      c.participants = [opener, item.user] := by
  have hadd : ∀ (itemId userId : Nat) (item : LostFound) (created : Chat),
      items itemId = some item → created.itemId = itemId →
      created.participants = [userId, item.user] →
      ∀ c ∈ chats ++ [created], ∃ opener item, items c.itemId = some item ∧
        c.participants = [opener, item.user] := by
    intro itemId userId item created hitem hid hpart c hc
    rcases List.mem_append.mp hc with hc | hc
    · exact hinv c hc
    · rw [List.mem_singleton.mp hc]
      exact ⟨userId, item, by rw [hid]; exact hitem, hpart⟩
  cases req with
  | get itemId userId now =>
    simp only [stepChat]
    cases hitem : items itemId with
    | none => rw [chatGet_notFound items chats itemId userId now hitem]; exact hinv
    | some item =>
      cases hfind : chats.find? (chatFilter itemId userId item) with
      | some chat =>
        rw [chatGet_found items chats itemId userId now item chat hitem hfind]; exact hinv
      | none =>
        rw [chatGet_created items chats itemId userId now item hitem hfind]
        exact hadd itemId userId item _ hitem rfl rfl
  | postMessage itemId userId content now =>
    simp only [stepChat]
    cases hblank : blankContent content with
    | true =>
      rw [chatPostMessage_blank items chats itemId userId content now hblank]; exact hinv
    | false =>
      cases content with
      | none => simp [blankContent] at hblank
      | some text =>
        cases hitem : items itemId with
        | none =>
          rw [chatPostMessage_notFound items chats itemId userId text now hblank hitem]
          exact hinv
        | some item =>
          cases hfind : chats.find? (chatFilter itemId userId item) with
          | some chat =>
            rw [chatPostMessage_found items chats itemId userId text now item chat hblank hitem
              hfind]
            intro c hc
            obtain ⟨c0, h0, hid, hp⟩ := saveFirst_frame (chatFilter itemId userId item)
              (fun found => pushMessage found userId text now) chats
              (fun _ => ⟨rfl, rfl⟩) c hc
            rw [hid, hp]
            exact hinv c0 h0
          | none =>
            rw [chatPostMessage_created items chats itemId userId text now item hblank hitem
              hfind]
            exact hadd itemId userId item _ hitem rfl rfl

theorem runChats_invariant (items : Collection LostFound) (reqs : List ChatRequest)
    (chats : List Chat) (hkeys : (chats.map chatKey).Nodup)
    (htwo : ∀ c ∈ chats, c.participants.length = 2)
    (hown : ∀ c ∈ chats, ∃ opener item, items c.itemId = some item ∧
      c.participants = [opener, item.user]) :
    ((runChats items chats reqs).map chatKey).Nodup ∧
    (∀ c ∈ runChats items chats reqs, c.participants.length = 2) ∧
    ∀ c ∈ runChats items chats reqs, ∃ opener item, items c.itemId = some item ∧
      c.participants = [opener, item.user] := by
  induction reqs generalizing chats with
  | nil => exact ⟨hkeys, htwo, hown⟩
  | cons req rest ih =>
    exact ih (stepChat items chats req) (stepChat_keys items chats req hkeys)
      (stepChat_two_participants items chats req htwo)
      (stepChat_opener_owner items chats req hown)

/-! ## Claims on chats -/

/-- C22 as stated fails: from the empty chat store, a read of the chat of item
1 by user 8 and a read by user 9 (neither is the owner, user 7) leave two chat
documents for item 1. -/
theorem chat_uniqueness_counterexample :
    itemDb "open" 1 = some (itemOf "open") ∧
    runChats (itemDb "open") [] [.get 1 8 50, .get 1 9 60] =
      [newChat 1 8 (itemOf "open") 50, newChat 1 9 (itemOf "open") 60] ∧
    ((runChats (itemDb "open") [] [.get 1 8 50, .get 1 9 60]).filter
      (fun c => c.itemId == 1)).length = 2 := by
  decide

/-- C22, amended. At every state reachable from the empty chat store by any
sequence of chat reads and message sends, served one after another for any
users, there is at most one chat document for each pair of an item and a user
who opened a chat on it (the chat's first participant), and every chat has
exactly two participant entries: the user who opened it, then the owner of its
item; an item may have several chats, one for each such user. -/
theorem chat_uniqueness_amended (items : Collection LostFound) (reqs : List ChatRequest) :
    ((runChats items [] reqs).map chatKey).Nodup ∧
    (∀ (i j : Nat) (a b : Chat), (runChats items [] reqs)[i]? = some a →
      (runChats items [] reqs)[j]? = some b → a.itemId = b.itemId →
      a.participants.head? = b.participants.head? → i = j) ∧
    (∀ c ∈ runChats items [] reqs, c.participants.length = 2) ∧
    (∀ c ∈ runChats items [] reqs, ∃ opener item, items c.itemId = some item ∧
      c.participants = [opener, item.user]) := by
  have h := runChats_invariant items reqs [] List.nodup_nil
    (fun c hc => absurd hc (List.not_mem_nil c)) (fun c hc => absurd hc (List.not_mem_nil c))
  refine ⟨h.1, ?_, h.2.1, h.2.2⟩
  intro i j a b ha hb hid hhead
  obtain ⟨hi, rfl⟩ := List.getElem?_eq_some_iff.mp ha
  obtain ⟨hj, rfl⟩ := List.getElem?_eq_some_iff.mp hb
  have hi2 : i < ((runChats items [] reqs).map chatKey).length := by simpa using hi
  have hj2 : j < ((runChats items [] reqs).map chatKey).length := by simpa using hj
  have hkey : ((runChats items [] reqs).map chatKey)[i] =
      ((runChats items [] reqs).map chatKey)[j] := by
    simp only [List.getElem_map, chatKey, hid, hhead]
  exact (h.1.getElem_inj_iff).mp hkey

/-- C23. On an item none of whose chats exists yet, the first message of a
sender who is not the item's owner is accepted and adds one chat, whose
participants are the sender and the owner and whose only message is that
message; the sender's second message is accepted and is stored in that same
chat: the item still has one chat, the participants are the same two, without
a duplicate, and the chat holds both messages in order. -/
theorem first_message_creates_chat (items : Collection LostFound) (chats : List Chat)
    (itemId sender : Nat) (item : LostFound) (text1 text2 : String) (now1 now2 : Int)
    (hitem : items itemId = some item) (hnone : ∀ c ∈ chats, c.itemId ≠ itemId)
    (hsender : sender ≠ item.user) (h1 : blankContent (some text1) = false)
    (h2 : blankContent (some text2) = false) :
    (chatPostMessage items chats itemId sender (some text1) now1).1.status = 200 ∧
    (chatPostMessage items chats itemId sender (some text1) now1).2 =
      chats ++ [{ itemId := itemId, participants := [sender, item.user]
                  messages := [{ sender := sender, content := text1, createdAt := now1 }]
                  createdAt := now1, updatedAt := now1 }] ∧
    (chatPostMessage items (chatPostMessage items chats itemId sender (some text1) now1).2
      itemId sender (some text2) now2).1.status = 200 ∧
    (chatPostMessage items (chatPostMessage items chats itemId sender (some text1) now1).2
      itemId sender (some text2) now2).2 =
      chats ++ [{ itemId := itemId, participants := [sender, item.user]
                  messages := [{ sender := sender, content := text1, createdAt := now1 },
                    { sender := sender, content := text2, createdAt := now2 }]
                  createdAt := now1, updatedAt := now2 }] ∧
    ((chatPostMessage items (chatPostMessage items chats itemId sender (some text1) now1).2
      itemId sender (some text2) now2).2.filter (fun c => c.itemId == itemId)).length = 1 ∧
    [sender, item.user].Nodup := by
  have hfalse : ∀ c ∈ chats, chatFilter itemId sender item c = false := by
    intro c hc
    simp [chatFilter, hnone c hc]
  have hfind1 : chats.find? (chatFilter itemId sender item) = none :=
    List.find?_eq_none.mpr (fun c hc => by simp [hfalse c hc])
  have hpost1 := chatPostMessage_created items chats itemId sender text1 now1 item h1 hitem hfind1
  have hlast : chatFilter itemId sender item
      (pushMessage (newChat itemId sender item now1) sender text1 now1) = true := by
    simp [chatFilter, pushMessage, newChat]
  have hfind2 : (chats ++ [pushMessage (newChat itemId sender item now1) sender text1 now1]).find?
      (chatFilter itemId sender item) =
      some (pushMessage (newChat itemId sender item now1) sender text1 now1) := by
    rw [List.find?_append, hfind1]
    simp [List.find?, hlast]
  have hpost2 := chatPostMessage_found items _ itemId sender text2 now2 item _ h2 hitem hfind2
  rw [saveFirst_append_last _ _ chats _ hfalse hlast] at hpost2
  rw [hpost1, hpost2]
  refine ⟨rfl, rfl, rfl, rfl, ?_, by simp [hsender]⟩
  rw [List.filter_append]
  have hempty : chats.filter (fun c => c.itemId == itemId) = [] := by
    rw [List.filter_eq_nil_iff]
    intro c hc
    simp [hnone c hc]
  rw [hempty]
  simp [pushMessage, newChat]

/-- Witness of C23: user 8 sends two messages on the sample item of user 7. -/
theorem first_message_creates_chat_witness :
    itemDb "open" 1 = some (itemOf "open") ∧ (8 : Nat) ≠ (itemOf "open").user ∧
    blankContent (some "Is it blue?") = false ∧ blankContent (some "With a hook") = false ∧
    (chatPostMessage (itemDb "open")
      (chatPostMessage (itemDb "open") [] 1 8 (some "Is it blue?") 40).2 1 8
      (some "With a hook") 50).2 =
      [{ itemId := 1, participants := [8, 7]
         messages := [{ sender := 8, content := "Is it blue?", createdAt := 40 },
           { sender := 8, content := "With a hook", createdAt := 50 }]
         createdAt := 40, updatedAt := 50 }] :=
  ⟨rfl, by decide, by decide, by decide,
    (first_message_creates_chat (itemDb "open") [] 1 8 (itemOf "open") "Is it blue?"
      "With a hook" 40 50 rfl (fun c hc => absurd hc (List.not_mem_nil c)) (by decide)
      (by decide) (by decide)).2.2.2.1⟩

/-- C24 as stated fails: item 1 of user 7 has a chat between user 8 and the
owner; user 9, who is neither a participant of it nor the owner, sends a
message, which is accepted: a second chat is created for user 9 and holds the
message. -/
theorem stranger_message_counterexample :
    itemDb "open" 1 = some (itemOf "open") ∧ chatEight.itemId = 1 ∧
    9 ∉ chatEight.participants ∧ (9 : Nat) ≠ (itemOf "open").user ∧
    (chatPostMessage (itemDb "open") [chatEight] 1 9 (some "Mine!") 50).1.status = 200 ∧
    (chatPostMessage (itemDb "open") [chatEight] 1 9 (some "Mine!") 50).2 =
      [chatEight,
        { itemId := 1, participants := [9, 7]
          messages := [{ sender := 9, content := "Mine!", createdAt := 50 }]
          createdAt := 50, updatedAt := 50 }] := by
  decide

/-- C24, amended. On an item that already has a chat, a message with content
that is not blank, sent by a requester who is neither a participant of any chat
of the item nor the item's owner, is accepted: a new chat of the item is stored
after the existing ones, with the requester and the owner as participants and
that message as its only message; the existing chats are unchanged, so no
message of the requester enters them. -/
theorem stranger_message_amended (items : Collection LostFound) (chats : List Chat)
    (itemId userId : Nat) (item : LostFound) (text : String) (now : Int)
    (hitem : items itemId = some item) (hchat : ∃ c ∈ chats, c.itemId = itemId)
    (hstranger : ∀ c ∈ chats, c.itemId = itemId → userId ∉ c.participants)
    (howner : userId ≠ item.user) (htext : blankContent (some text) = false) :
    chatPostMessage items chats itemId userId (some text) now =
      (Response.json
          { itemId := itemId, participants := [userId, item.user]
            messages := [{ sender := userId, content := text, createdAt := now }]
            createdAt := now, updatedAt := now },
        chats ++ [{ itemId := itemId, participants := [userId, item.user]
                    messages := [{ sender := userId, content := text, createdAt := now }]
                    createdAt := now, updatedAt := now }]) := by
  have hfind : chats.find? (chatFilter itemId userId item) = none := by
    apply List.find?_eq_none.mpr
    intro c hc
    by_cases hid : c.itemId = itemId
    · simp [chatFilter, hid, hstranger c hc hid, Ne.symm howner]
    · simp [chatFilter, hid]
  exact chatPostMessage_created items chats itemId userId text now item htext hitem hfind

/-- Witness of C24, amended: user 9 writes on the sample item, which has the
chat of user 8. -/
theorem stranger_message_amended_witness :
    itemDb "open" 1 = some (itemOf "open") ∧
    chatPostMessage (itemDb "open") [chatEight] 1 9 (some "Mine!") 50 =
      (Response.json
          { itemId := 1, participants := [9, (itemOf "open").user]
            messages := [{ sender := 9, content := "Mine!", createdAt := 50 }]
            createdAt := 50, updatedAt := 50 },
        [chatEight] ++ [{ itemId := 1, participants := [9, (itemOf "open").user]
                          messages := [{ sender := 9, content := "Mine!", createdAt := 50 }]
                          createdAt := 50, updatedAt := 50 }]) :=
  ⟨rfl, stranger_message_amended (itemDb "open") [chatEight] 1 9 (itemOf "open") "Mine!" 50 rfl
    ⟨chatEight, List.mem_singleton.mpr rfl, rfl⟩ (by decide) (by decide) (by decide)⟩

/-- C25. A send whose content is absent or blank (nothing left after
trimming) is answered 400 `Message content is required` and the stored chats
are unchanged. An accepted send changes the stored chats at one position `i`
only: the chat `previous` found there, or a new chat with no message placed at
the end, becomes a chat whose messages are those of `previous` followed by one
message, whose sender is the requester and whose content is the content sent;
every other position keeps its chat. A chat read leaves every stored chat as it
was. -/
theorem chat_messages_append_only (items : Collection LostFound) (chats : List Chat)
    (itemId userId : Nat) (content : Option String) (now : Int) :
    (blankContent content = true →
      chatPostMessage items chats itemId userId content now =
        (Response.fail 400 "Message content is required", chats)) ∧
    ((chatPostMessage items chats itemId userId content now).1.status = 200 →
      ∃ (text : String) (i : Nat) (previous updated : Chat), content = some text ∧
        (chats[i]? = some previous ∨ (i = chats.length ∧ previous.messages = [])) ∧
        (chatPostMessage items chats itemId userId content now).2[i]? = some updated ∧
        updated.messages =
          previous.messages ++ [{ sender := userId, content := text, createdAt := now }] ∧
        updated.itemId = previous.itemId ∧ updated.participants = previous.participants ∧
        ∀ j, j ≠ i → (chatPostMessage items chats itemId userId content now).2[j]? = chats[j]?) ∧
    (∀ (j : Nat) (c : Chat), chats[j]? = some c →
      (chatGet items chats itemId userId now).2[j]? = some c) := by
  have happend : ∀ (created : Chat) (j : Nat), j ≠ chats.length →
      (chats ++ [created])[j]? = chats[j]? := by
    intro created j hj
    rcases Nat.lt_or_gt_of_ne hj with hlt | hgt
    · exact List.getElem?_append_left hlt
    · rw [List.getElem?_eq_none (by simp; omega), List.getElem?_eq_none (by omega)]
  refine ⟨chatPostMessage_blank items chats itemId userId content now, ?_, ?_⟩
  · intro hok
    cases hblank : blankContent content with
    | true =>
      rw [chatPostMessage_blank items chats itemId userId content now hblank] at hok
      simp [Response.fail] at hok
    | false =>
      cases content with
      | none => simp [blankContent] at hblank
      | some text =>
        cases hitem : items itemId with
        | none =>
          rw [chatPostMessage_notFound items chats itemId userId text now hblank hitem] at hok
          simp [Response.fail] at hok
        | some item =>
          cases hfind : chats.find? (chatFilter itemId userId item) with
          | some chat =>
            rw [chatPostMessage_found items chats itemId userId text now item chat hblank hitem
              hfind]
            obtain ⟨i, hi, hup, hother⟩ := saveFirst_getElem? (chatFilter itemId userId item)
              (fun found => pushMessage found userId text now) chats chat hfind
            exact ⟨text, i, chat, pushMessage chat userId text now, rfl, Or.inl hi, hup, rfl,
              rfl, rfl, hother⟩
          | none =>
            rw [chatPostMessage_created items chats itemId userId text now item hblank hitem
              hfind]
            refine ⟨text, chats.length, newChat itemId userId item now,
              pushMessage (newChat itemId userId item now) userId text now, rfl,
              Or.inr ⟨rfl, rfl⟩, by simp, rfl, rfl, rfl, ?_⟩
            intro j hj
            exact happend _ j hj
  · intro j c hj
    have hlt : j < chats.length := (List.getElem?_eq_some_iff.mp hj).1
    cases hitem : items itemId with
    | none => rw [chatGet_notFound items chats itemId userId now hitem]; exact hj
    | some item =>
      cases hfind : chats.find? (chatFilter itemId userId item) with
      | some chat => rw [chatGet_found items chats itemId userId now item chat hitem hfind]; exact hj
      | none =>
        rw [chatGet_created items chats itemId userId now item hitem hfind]
        exact (List.getElem?_append_left hlt).trans hj

/-- Witness of C25: the owner answers in the chat of user 8; a send of blanks
is refused. -/
theorem chat_messages_append_only_witness :
    blankContent (some "  \t ") = true ∧
    chatPostMessage (itemDb "open") [chatEight] 1 7 (some "  \t ") 60 =
      (Response.fail 400 "Message content is required", [chatEight]) ∧
    (chatPostMessage (itemDb "open") [chatEight] 1 7 (some "Yes, navy") 60).2 =
      [{ chatEight with
          messages := chatEight.messages ++
            [{ sender := 7, content := "Yes, navy", createdAt := 60 }]
          updatedAt := 60 }] :=
  ⟨by decide,
    (chat_messages_append_only (itemDb "open") [chatEight] 1 7 (some "  \t ") 60).1 (by decide),
    by decide⟩

/-! ## Claims on the monthly statistics -/

theorem filterMap_resolutionHours (docs : List Maintenance) :
    (docs.map resolutionHours).filterMap (fun x => x) =
      (resolvedSamples docs).map
        (fun r => (((r.resolvedAt.getD 0) - r.createdAt : Int) : ℚ) / 3600000) := by
  induction docs with
  | nil => rfl
  | cons r rest ih =>
    have htail : resolvedSamples rest =
        rest.filter (fun r => r.status == "resolved" && r.resolvedAt.isSome) := rfl
    by_cases hst : r.status = "resolved"
    · cases hres : r.resolvedAt with
      | none =>
        simp only [List.map_cons, resolutionHours, hst, if_true, hres, Option.map_none',
          List.filterMap_cons_none, resolvedSamples]
        rw [List.filter_cons_of_neg (by simp [hst, hres])]
        rw [← htail, ← ih]
      | some t =>
        simp only [List.map_cons, resolutionHours, hst, if_true, hres, Option.map_some',
          resolvedSamples]
        rw [List.filter_cons_of_pos (by simp [hst, hres])]
        rw [List.filterMap_cons_some (f := fun x => x)
            (b := ((t - r.createdAt : Int) : ℚ) / (1000 * 60 * 60)) rfl,
          List.map_cons, ← htail, ← ih]
        simp only [hres, Option.getD_some]
        congr 1
        norm_num
    · simp only [List.map_cons, resolutionHours, hst, if_false, List.filterMap_cons_none,
        resolvedSamples]
      rw [List.filter_cons_of_neg (by simp [hst])]
      rw [← htail, ← ih]

theorem avg_resolutionHours (docs : List Maintenance) :
    avg (docs.map resolutionHours) = meanResolutionHours docs := by
  unfold avg meanResolutionHours
  simp only [filterMap_resolutionHours, List.map_eq_nil_iff, List.length_map]

theorem resolvedSamples_idem (docs : List Maintenance) :
    resolvedSamples (resolvedSamples docs) = resolvedSamples docs := by
  unfold resolvedSamples
  rw [List.filter_filter]
  simp

/-- C26. The statistics pipeline emits one group for each distinct
`(type, category, status)` among the records in the window; the group's `count`
is the number of all records of the window with that triple, and its
`avgResolutionTime` is the arithmetic mean, in hours (milliseconds divided by
3,600,000), of `resolvedAt - createdAt` over those of them that are resolved
and carry a `resolvedAt`. Records that are not resolved or lack `resolvedAt`
are no sample: the mean over a list of records is the mean over its samples
alone, and with no sample it is null. Arithmetic is exact (over the rationals). -/
theorem stats_average (docs : List Maintenance) (startDate endDate : Int) :
    aggregate docs startDate endDate =
      ((matchStage docs startDate endDate).map groupId).dedup.map (fun g =>
        { _id := g
          count := ((matchStage docs startDate endDate).filter
            (fun r => groupId r == g)).length
          avgResolutionTime := meanResolutionHours
            ((matchStage docs startDate endDate).filter (fun r => groupId r == g)) }) ∧
    (∀ records : List Maintenance,
      meanResolutionHours records = meanResolutionHours (resolvedSamples records) ∧
      (resolvedSamples records = [] → meanResolutionHours records = none) ∧
      (resolvedSamples records ≠ [] → meanResolutionHours records =
        some (((resolvedSamples records).map
            (fun r => (((r.resolvedAt.getD 0) - r.createdAt : Int) : ℚ) / 3600000)).sum /
          (resolvedSamples records).length))) := by
  constructor
  · unfold aggregate groupStage
    apply List.map_congr_left
    intro g _
    rw [avg_resolutionHours]
  · intro records
    refine ⟨?_, ?_, ?_⟩
    · unfold meanResolutionHours
      rw [resolvedSamples_idem]
    · intro h
      simp [meanResolutionHours, h]
    · intro h
      simp [meanResolutionHours, h]

/-- Witness of C26: three resolved plumbing requests, one of which lacks
`resolvedAt`, form one group of count 3 whose average is the mean of the two
samples, two hours and one hour. -/
theorem stats_average_witness :
    aggregate resolvedDocs 0 10000000 =
      [{ _id := { type := "maintenance", category := "plumbing", status := "resolved" }
         count := 3, avgResolutionTime := some (3 / 2) }] := by
  rw [(stats_average resolvedDocs 0 10000000).1]
  have hmatch : matchStage resolvedDocs 0 10000000 = resolvedDocs := by decide
  have hids : (resolvedDocs.map groupId).dedup =
      [{ type := "maintenance", category := "plumbing", status := "resolved" }] := by decide
  have hgroup : resolvedDocs.filter (fun r => groupId r ==
      { type := "maintenance", category := "plumbing", status := "resolved" }) =
      resolvedDocs := by decide
  have hsamples : resolvedSamples resolvedDocs =
      [recordOf 7 "resolved" 0 (some 7200000), recordOf 7 "resolved" 3600000 (some 7200000)] := by
    decide
  rw [hmatch, hids]
  simp only [List.map_cons, List.map_nil, hgroup]
  have hmean : meanResolutionHours resolvedDocs = some (3 / 2) := by
    unfold meanResolutionHours
    rw [hsamples]
    simp [recordOf]
    norm_num
  rw [hmean]
  rfl

/-- C27 fails on the last day of the month. For January 2024 on a server
whose local time is UTC, the window ends at the first instant of 31 January,
so a request created at noon on 31 January, inside the calendar month, is in no
group: the handler answers with no group at all. -/
theorem stats_window_last_day :
    statsWindow 0 2024 1 = (1704067200000, 1706659200000) ∧
    newDate 0 2024 1 1 = 1706745600000 ∧
    lastDayDocs.map (fun r => r.createdAt) = [1706702400000] ∧
    (1704067200000 : Int) ≤ 1706702400000 ∧ (1706702400000 : Int) < 1706745600000 ∧
    (maintenanceStatsMonthly lastDayDocs "admin" 0 2024 1).doc.map List.length = some 0 := by
  decide

end Society
